import Mathlib

/-!
Shallow embedding of ProjectLIQUEflow's core: the tokenized unified ledger
(src/ledger/unified_ledger.py), the circuit breaker (src/security/guardrails.py)
and the liquidity agent decision pipeline (src/agents/liquidity_agent.py).

Monetary amounts (Python floats) are modelled as rationals.  The uuid-generated
token identifiers and the datetime creation timestamps are both modelled by one
increasing per-ledger counter (`next_token`): the source relies exactly on uuid
freshness for identity and on strictly increasing creation times for FIFO
ordering.  Human-readable message strings keep the source's wording but render
amounts with `toString` instead of Python's comma/decimal formatting.
-/

namespace LiqueFlow

/-- A tokenized deposit on the unified ledger (class TokenizedDeposit:
token_id, owner, amount, currency, created_at, status with default ACTIVE). -/
structure TokenizedDeposit where
  token_id : Nat
  owner : String
  amount : ℚ
  currency : String
  created_at : Nat
  status : String
  deriving DecidableEq, Repr

/-- An atomic settlement record (class AtomicSettlement).  The uuid settlement
id, instruction hash and timestamps are outside the embedding. -/
structure AtomicSettlement where
  from_account : String
  to_account : String
  amount : ℚ
  currency : String
  status : String
  message_id : Option String
  failure_reason : Option String
  deriving DecidableEq, Repr

/-- The unified ledger state (class UnifiedLedger): cached per-account balances
(`ledger_state`, a Python dict modelled as an insertion-ordered association
list), the token table (dict token_id -> deposit, modelled as a list with the
ids stored in the deposits), the append-only settlements list, and the fresh
id / creation-time counter. -/
structure UnifiedLedger where
  bank_id : String
  ledger_state : List (String × ℚ)
  tokenized_deposits : List TokenizedDeposit
  settlements : List AtomicSettlement
  next_token : Nat
  deriving DecidableEq, Repr

/-- Dict lookup on the cached balances. -/
def lookupBal (st : List (String × ℚ)) (k : String) : Option ℚ :=
  (st.find? (fun p => p.1 == k)).map (·.2)

/-- Dict update (key already present) on the cached balances. -/
def setBal (st : List (String × ℚ)) (k : String) (v : ℚ) : List (String × ℚ) :=
  st.map (fun p => if p.1 == k then (p.1, v) else p)

/-- UnifiedLedger.__init__: one cached balance entry for the bank and one
initial ACTIVE deposit of the full initial balance (_mint_initial_deposits). -/
def UnifiedLedger.init (initial_balance : ℚ) (bank_id : String := "BANK-001") :
    UnifiedLedger :=
  let d : TokenizedDeposit :=
    { token_id := 0, owner := bank_id, amount := initial_balance,
      currency := "USD", created_at := 0, status := "ACTIVE" }
  { bank_id := bank_id,
    ledger_state := [(bank_id, initial_balance)],
    tokenized_deposits := [d],
    settlements := [],
    next_token := 1 }

/-- The selection predicate of both get_total_tokenized_balance and
burn_deposit: the account's ACTIVE deposits. -/
def ownActive (account : String) : TokenizedDeposit → Bool :=
  fun t => t.owner == account && t.status == "ACTIVE"

/-- UnifiedLedger.get_total_tokenized_balance: sum of the account's ACTIVE
deposit amounts. -/
def get_total_tokenized_balance (L : UnifiedLedger) (account : String) : ℚ :=
  ((L.tokenized_deposits.filter (ownActive account)).map
    TokenizedDeposit.amount).sum

/-- Sum of ACTIVE deposit amounts over the whole ledger (all owners). -/
def totalActive (L : UnifiedLedger) : ℚ :=
  ((L.tokenized_deposits.filter (fun t => t.status == "ACTIVE")).map
    TokenizedDeposit.amount).sum

/-- UnifiedLedger.mint_deposit: create one new ACTIVE deposit, update the
cached balance (creating the entry at 0.0 first when absent), return it. -/
def mint_deposit (L : UnifiedLedger) (owner : String) (amount : ℚ)
    (currency : String := "USD") : UnifiedLedger × TokenizedDeposit :=
  let d : TokenizedDeposit :=
    { token_id := L.next_token, owner := owner, amount := amount,
      currency := currency, created_at := L.next_token, status := "ACTIVE" }
  let st :=
    match lookupBal L.ledger_state owner with
    | some v => setBal L.ledger_state owner (v + amount)
    | none => L.ledger_state ++ [(owner, 0 + amount)]
  ({ L with tokenized_deposits := L.tokenized_deposits ++ [d],
            ledger_state := st,
            next_token := L.next_token + 1 }, d)

/-- Stable insertion of a deposit after every deposit with creation time at
most its own (helper for the source's stable `sort(key=created_at)`). -/
def insertByTime (t : TokenizedDeposit) : List TokenizedDeposit →
    List TokenizedDeposit
  | [] => [t]
  | u :: us =>
    if u.created_at ≤ t.created_at then u :: insertByTime t us
    else t :: u :: us

/-- Stable sort by creation time (the source's `available_tokens.sort`). -/
def sortByTime (ts : List TokenizedDeposit) : List TokenizedDeposit :=
  ts.foldl (fun acc t => insertByTime t acc) []

/-- One step of the FIFO loop in UnifiedLedger.burn_deposit: either a token is
entirely burned (`full`, recording its id and amount), or the loop ends on a
token that only partially covers the remainder (`split`, recording the token's
id, its original amount, the new remainder amount the source writes back into
it, and its currency). -/
inductive BurnAction where
  | full (id : Nat) (amt : ℚ)
  | split (id : Nat) (origAmt newAmt : ℚ) (curr : String)
  deriving DecidableEq, Repr

/-- The burn loop over the FIFO-sorted available tokens (lines 151-172 of
unified_ledger.py), with the mutations recorded as actions. -/
def burnLoop : List TokenizedDeposit → ℚ → List BurnAction
  | [], _ => []
  | t :: ts, remaining =>
    if remaining ≤ 0 then []
    else if t.amount ≤ remaining then
      .full t.token_id t.amount :: burnLoop ts (remaining - t.amount)
    else
      [.split t.token_id t.amount (t.amount - remaining) t.currency]

/-- Ids of the entirely burned tokens. -/
def fullIds (acts : List BurnAction) : List Nat :=
  acts.filterMap (fun a => match a with
    | .full i _ => some i
    | .split _ _ _ _ => none)

/-- The split action, if the loop ended on a partial cover. -/
def splitOf (acts : List BurnAction) : Option (Nat × ℚ × ℚ × String) :=
  (acts.filterMap (fun a => match a with
    | .full _ _ => none
    | .split i a0 na c => some (i, a0, na, c))).head?

/-- The token ids the source appends to `burned_tokens`, in loop order (the
split token's id included even though its status is never changed). -/
def burnedIds (acts : List BurnAction) : List Nat :=
  acts.map (fun a => match a with
    | .full i _ => i
    | .split i _ _ _ => i)

/-- The in-place token mutations of the burn loop, as a function applied to
every entry of the token table: fully covered tokens get status BURNED; the
split token gets its amount overwritten with the remainder — its status is
left ACTIVE, exactly as in the source (lines 160-172). -/
def applyBurnTok (acts : List BurnAction) (t : TokenizedDeposit) :
    TokenizedDeposit :=
  if (fullIds acts).contains t.token_id then { t with status := "BURNED" }
  else
    match splitOf acts with
    | some (i, _, na, _) =>
        if t.token_id = i then { t with amount := na } else t
    | none => t

/-- UnifiedLedger.burn_deposit: FIFO-select the owner's ACTIVE deposits by
creation time and consume them.  On a partial cover the source reduces the
token's amount to the remainder without changing its status and additionally
appends a fresh ACTIVE token for the same remainder — both reproduced here.
The cached balance is decremented by the full requested amount whenever the
owner has a cache entry, with no check against the available total. -/
def burn_deposit (L : UnifiedLedger) (owner : String) (amount : ℚ) :
    UnifiedLedger × List Nat :=
  let available := sortByTime (L.tokenized_deposits.filter (ownActive owner))
  let acts := burnLoop available amount
  let ds := L.tokenized_deposits.map (applyBurnTok acts)
  let ds2 :=
    match splitOf acts with
    | some (_, _, na, c) =>
        let d : TokenizedDeposit :=
          { token_id := L.next_token, owner := owner, amount := na,
            currency := c, created_at := L.next_token, status := "ACTIVE" }
        ds ++ [d]
    | none => ds
  let st :=
    match lookupBal L.ledger_state owner with
    | some v => setBal L.ledger_state owner (v - amount)
    | none => L.ledger_state
  ({ L with
      tokenized_deposits := ds2,
      ledger_state := st,
      next_token := match splitOf acts with
        | some _ => L.next_token + 1
        | none => L.next_token },
   burnedIds acts)

/-- The failure reason attached to an insufficient-balance settlement. -/
def insufficientBalanceMsg (available required : ℚ) : String :=
  "Insufficient balance. Available: " ++ toString available ++
    ", Required: " ++ toString required

/-- UnifiedLedger.execute_atomic_settlement: check the sender's available
tokenized balance; on a shortfall record a FAILED settlement with a reason and
change nothing else; otherwise burn from the sender, mint to the receiver and
record an EXECUTED settlement. -/
def execute_atomic_settlement (L : UnifiedLedger)
    (from_account to_account : String) (amount : ℚ)
    (message_id : Option String := none) : UnifiedLedger × AtomicSettlement :=
  let available := get_total_tokenized_balance L from_account
  if available < amount then
    let s : AtomicSettlement :=
      { from_account := from_account, to_account := to_account,
        amount := amount, currency := "USD", status := "FAILED",
        message_id := message_id,
        failure_reason := some (insufficientBalanceMsg available amount) }
    ({ L with settlements := L.settlements ++ [s] }, s)
  else
    let L1 := (burn_deposit L from_account amount).1
    let L2 := (mint_deposit L1 to_account amount).1
    let s : AtomicSettlement :=
      { from_account := from_account, to_account := to_account,
        amount := amount, currency := "USD", status := "EXECUTED",
        message_id := message_id, failure_reason := none }
    ({ L2 with settlements := L2.settlements ++ [s] }, s)

/-- Well-formedness of a ledger, maintained by construction in the source:
token ids are pairwise distinct (uuid freshness), every id is below the fresh
counter, and the cached-balance dict has pairwise distinct keys. -/
def WF (L : UnifiedLedger) : Prop :=
  (L.tokenized_deposits.map TokenizedDeposit.token_id).Nodup ∧
  (∀ t ∈ L.tokenized_deposits, t.token_id < L.next_token) ∧
  (L.ledger_state.map Prod.fst).Nodup

instance (L : UnifiedLedger) : Decidable (WF L) := by
  unfold WF
  exact inferInstance

/-- An ISO 20022 payment instruction (class ISO20022Message), restricted to the
fields the decision core reads: msg_id, priority (a string, via pydantic's
use_enum_values), amount, is_sovereign.  The remaining fields (msg_type,
currency, timestamps, party names, raw xml) are never consulted by the
guardrails or the agent. -/
structure ISO20022Message where
  msg_id : String
  priority : String
  amount : ℚ
  is_sovereign : Bool
  deriving DecidableEq, Repr

/-- The result of an agent decision (class DecisionResult), without the
wall-clock timestamp and the unused delay_penalty field. -/
structure DecisionResult where
  message_id : String
  decision : String
  reasoning_steps : List String
  liquidity_before : ℚ
  liquidity_after : Option ℚ
  opportunity_cost_saved : Option ℚ
  risk_score : ℚ
  deriving DecidableEq, Repr

/-- The circuit breaker's configuration (class CircuitBreaker fields). -/
structure CircuitBreaker where
  max_allowable_variance : ℚ
  max_liquidity_percentage : ℚ
  total_liquidity_pool : ℚ
  deriving DecidableEq, Repr

/-- Block reason for the absolute amount limit, amounts rendered with
toString in place of Python's currency formatting. -/
def varianceBlockMsg (amount maxv : ℚ) : String :=
  "Transaction amount " ++ toString amount ++
    " exceeds maximum allowable variance " ++ toString maxv

/-- Block reason for the fraction-of-total-liquidity limit. -/
def percentBlockMsg (percentage maxp : ℚ) : String :=
  "Transaction represents " ++ toString percentage ++
    " of total liquidity, exceeds " ++ toString maxp ++ " limit"

/-- Block reason for an insufficient balance without the urgent/sovereign
exemption. -/
def insufficientBlockMsg (bal req : ℚ) : String :=
  "Insufficient balance. Current: " ++ toString bal ++
    ", Required: " ++ toString req

/-- CircuitBreaker.check_transaction: absolute limit, then pool-percentage
limit (only when the pool is positive), then the negative-balance check with
the URGENT/sovereign exemption. -/
def check_transaction (cb : CircuitBreaker) (m : ISO20022Message)
    (current_balance : ℚ) : Bool × Option String :=
  if cb.max_allowable_variance < m.amount then
    (false, some (varianceBlockMsg m.amount cb.max_allowable_variance))
  else if 0 < cb.total_liquidity_pool ∧
      cb.max_liquidity_percentage < m.amount / cb.total_liquidity_pool then
    (false, some (percentBlockMsg (m.amount / cb.total_liquidity_pool)
      cb.max_liquidity_percentage))
  else if current_balance < m.amount then
    if m.priority == "URGENT" || m.is_sovereign then (true, none)
    else (false, some (insufficientBlockMsg current_balance m.amount))
  else (true, none)

/-- CircuitBreaker.should_trigger_human_override: amount above 80% of the
absolute limit, or (when the pool is positive) above 40% of the pool. -/
def should_trigger_human_override (cb : CircuitBreaker) (m : ISO20022Message)
    (_current_balance : ℚ) : Bool :=
  if cb.max_allowable_variance * 0.8 < m.amount then true
  else if 0 < cb.total_liquidity_pool ∧
      0.4 < m.amount / cb.total_liquidity_pool then true
  else false

/-- The liquidity agent's configuration: its initial balance and its circuit
breaker (class LiquidityAgent fields; the optional LLM enrichment is outside
the deterministic core). -/
structure LiquidityAgent where
  initial_balance : ℚ
  circuit_breaker : CircuitBreaker
  deriving DecidableEq, Repr

/-- LiquidityAgent.__init__ with the SecretsManager defaults
(max_allowable_variance $1B, max_liquidity_percentage 0.5) and
set_total_liquidity_pool(initial_balance). -/
def mkLiquidityAgent (initial_balance : ℚ := 1000000000)
    (max_allowable_variance : ℚ := 1000000000)
    (max_liquidity_percentage : ℚ := 0.5) : LiquidityAgent :=
  { initial_balance := initial_balance,
    circuit_breaker :=
      { max_allowable_variance := max_allowable_variance,
        max_liquidity_percentage := max_liquidity_percentage,
        total_liquidity_pool := initial_balance } }

/-- The LangGraph state threaded through the pipeline (TypedDict AgentState),
without the wall-clock last_update field. -/
structure AgentState where
  current_balance : ℚ
  pending_queue : List ISO20022Message
  incoming_projections : List (String × ℚ)
  risk_score : ℚ
  decision_log : List String
  new_message : ISO20022Message
  decision_result : Option DecisionResult
  total_settled_today : ℚ
  total_delayed_today : ℚ
  deriving DecidableEq, Repr

/-- The liquidity snapshot exchanged with collaborators (class
LiquiditySnapshot), restricted to the fields process_message copies into the
agent state. -/
structure LiquiditySnapshot where
  current_balance : ℚ
  pending_queue : List ISO20022Message
  incoming_projections : List (String × ℚ)
  risk_score : ℚ
  total_settled_today : ℚ
  total_delayed_today : ℚ
  deriving DecidableEq, Repr

/-- LiquidityAgent._get_next_inflow: the projection value at the smallest key
(the source sorts the dict keys and takes the first; dict keys are unique, so
the fold below selects the same entry), 0.0 when there are none. -/
def get_next_inflow (proj : List (String × ℚ)) : ℚ :=
  match proj with
  | [] => 0
  | p :: ps => (ps.foldl (fun best q => if q.1 < best.1 then q else best) p).2

/-- LiquidityAgent._calculate_risk_score: the buffer-to-outflow step table,
with score 1.0 forced when the balance is exactly zero. -/
def calculate_risk_score (current_balance : ℚ) (m : ISO20022Message)
    (pending_queue : List ISO20022Message) : ℚ :=
  let total_pending := (pending_queue.map ISO20022Message.amount).sum
  let total_outflow := m.amount + total_pending
  if current_balance = 0 then 1
  else
    let buffer_ratio := current_balance / (total_outflow + 1)
    if 2 ≤ buffer_ratio then 0
    else if 1 ≤ buffer_ratio then 0.2
    else if 0.5 ≤ buffer_ratio then 0.5
    else if 0.2 ≤ buffer_ratio then 0.7
    else 1

/-- Decision-log line for a guardrail block. -/
def guardrailBlockLog (reason : String) : String :=
  "GUARDRAIL: Transaction blocked - " ++ reason

/-- Reasoning step recorded for a guardrail block. -/
def guardrailBlockReasoning (reason : String) : String :=
  "Circuit breaker blocked transaction: " ++ reason

/-- Reasoning strings of the decision matrix (amounts via toString). -/
def priorityUrgentMsg (p : String) : String :=
  "Priority check: " ++ p ++
    " priority or sovereign payment detected. Attempting immediate settlement."

/-- Reasoning string for a standard-priority instruction. -/
def priorityStandardMsg (p : String) : String :=
  "Priority check: " ++ p ++ " priority - standard processing."

/-- Reasoning string for the low-liquidity conservative mode. -/
def liquidityThresholdMsg (bal buffer : ℚ) : String :=
  "Liquidity threshold: Current balance " ++ toString bal ++
    " below precautionary buffer " ++ toString buffer ++
    ". Entering conservative mode."

/-- Reasoning string when a non-urgent payment is queued in conservative
mode. -/
def conservativeQueueMsg : String :=
  "Non-urgent payment queued due to low liquidity buffer."

/-- Reasoning string when delaying saves intraday credit. -/
def opportunitySaveMsg (cost inflow : ℚ) : String :=
  "Opportunity cost: Delaying saves " ++ toString cost ++
    " in intraday credit. Inflow of " ++ toString inflow ++ " expected soon."

/-- Reasoning string when delaying offers no savings. -/
def opportunityNoSaveMsg : String :=
  "Opportunity cost: No significant savings from delay. Proceeding with settlement."

/-- Reasoning string when the balance cannot cover an immediate settlement. -/
def insufficientSettleMsg (amt bal : ℚ) : String :=
  "Insufficient balance for immediate settlement. Amount: " ++ toString amt ++
    ", Available: " ++ toString bal

/-- Reasoning string when an urgent/sovereign deficit triggers a repo. -/
def repoRequestMsg : String :=
  "Urgent/sovereign payment requires liquidity repo. Triggering repo request."

/-- Reasoning string of the human-override check. -/
def overrideMsg : String :=
  "Transaction exceeds 80% of maximum allowable variance or 40% of total liquidity. Human override required."

/-- Decision-log line for the implicit liquidity repo. -/
def repoLogMsg (amt : ℚ) : String :=
  "LIQUIDITY REPO: Borrowing " ++ toString amt ++ " to cover deficit."

/-- Decision-log line for an executed settlement. -/
def settledLogMsg (amt bal : ℚ) : String :=
  "SETTLEMENT EXECUTED: " ++ toString amt ++ " settled. New balance: " ++
    toString bal

/-- Decision-log line for a queued payment. -/
def queuedLogMsg (id : String) : String :=
  "PAYMENT QUEUED: " ++ id ++ " added to pending queue."

/-- The REJECT decision result the guardrail stage installs on a block. -/
def guardrailRejectResult (m : ISO20022Message) (bal : ℚ) (r : String) :
    DecisionResult :=
  { message_id := m.msg_id, decision := "REJECT",
    reasoning_steps := [guardrailBlockReasoning r],
    liquidity_before := bal, liquidity_after := none,
    opportunity_cost_saved := none, risk_score := 1 }

/-- LiquidityAgent._check_guardrails_node: on a circuit-breaker block, record
the reason and install a REJECT decision with risk score 1.0; otherwise leave
the state untouched. -/
def check_guardrails_node (A : LiquidityAgent) (s : AgentState) : AgentState :=
  match check_transaction A.circuit_breaker s.new_message s.current_balance with
  | (true, _) => s
  | (false, reason) =>
    let r := reason.getD ""
    { s with
      decision_log := s.decision_log ++ [guardrailBlockLog r],
      decision_result := some (guardrailRejectResult s.new_message
        s.current_balance r) }

/-- The decision value computed by steps 1-5 of
LiquidityAgent._cash_manager_node (the node builds the decision and the
reasoning trail together in one pass; here the two are mirrored by two
defs sharing the same step conditions). -/
def cash_manager_decision (A : LiquidityAgent) (m : ISO20022Message)
    (current_balance : ℚ) (proj : List (String × ℚ)) : String :=
  let urgent : Bool := m.priority == "URGENT" || m.is_sovereign
  let d1 := if urgent then "SETTLE" else "QUEUE"
  let precautionary_buffer := A.initial_balance * 2 * 0.2
  let lowLiq : Bool := decide (current_balance < precautionary_buffer)
  let d2 := if lowLiq && !urgent then "QUEUE" else d1
  let next_inflow := get_next_inflow proj
  let step3 : Bool := d2 == "QUEUE" && decide (m.amount ≤ current_balance)
  let inflowSoon : Bool := !(next_inflow == 0) && decide (m.amount < next_inflow)
  let d3 := if step3 then (if inflowSoon then "QUEUE" else "SETTLE") else d2
  let step4 : Bool := d3 == "SETTLE" && decide (current_balance < m.amount)
  let d4 := if step4 then (if urgent then "SETTLE" else "QUEUE") else d3
  if should_trigger_human_override A.circuit_breaker m current_balance then
    "REQUIRE_HUMAN_OVERRIDE"
  else d4

/-- The reasoning strings appended by steps 1-5 of
LiquidityAgent._cash_manager_node, mirroring cash_manager_decision. -/
def cash_manager_reasoning (A : LiquidityAgent) (m : ISO20022Message)
    (current_balance : ℚ) (proj : List (String × ℚ)) : List String :=
  let urgent : Bool := m.priority == "URGENT" || m.is_sovereign
  let d1 := if urgent then "SETTLE" else "QUEUE"
  let r1 := if urgent then [priorityUrgentMsg m.priority]
    else [priorityStandardMsg m.priority]
  let precautionary_buffer := A.initial_balance * 2 * 0.2
  let lowLiq : Bool := decide (current_balance < precautionary_buffer)
  let d2 := if lowLiq && !urgent then "QUEUE" else d1
  let r2 := r1 ++
    (if lowLiq then
      [liquidityThresholdMsg current_balance precautionary_buffer] ++
        (if !urgent then [conservativeQueueMsg] else [])
     else [])
  let next_inflow := get_next_inflow proj
  let delay_cost := m.amount * 0.0001 * 2
  let step3 : Bool := d2 == "QUEUE" && decide (m.amount ≤ current_balance)
  let inflowSoon : Bool := !(next_inflow == 0) && decide (m.amount < next_inflow)
  let d3 := if step3 then (if inflowSoon then "QUEUE" else "SETTLE") else d2
  let r3 := r2 ++
    (if step3 then
      (if inflowSoon then [opportunitySaveMsg delay_cost next_inflow]
       else [opportunityNoSaveMsg])
     else [])
  let step4 : Bool := d3 == "SETTLE" && decide (current_balance < m.amount)
  let r4 := r3 ++
    (if step4 then
      [insufficientSettleMsg m.amount current_balance] ++
        (if urgent then [repoRequestMsg] else [])
     else [])
  r4 ++ (if should_trigger_human_override A.circuit_breaker m current_balance
    then [overrideMsg] else [])

/-- The decision result the cash-manager node installs. -/
def cashManagerResult (A : LiquidityAgent) (s : AgentState) : DecisionResult :=
  { message_id := s.new_message.msg_id,
    decision := cash_manager_decision A s.new_message s.current_balance
      s.incoming_projections,
    reasoning_steps := cash_manager_reasoning A s.new_message s.current_balance
      s.incoming_projections,
    liquidity_before := s.current_balance,
    liquidity_after := none,
    opportunity_cost_saved :=
      if cash_manager_decision A s.new_message s.current_balance
          s.incoming_projections = "QUEUE"
      then some (s.new_message.amount * 0.0001 * 2) else none,
    risk_score := calculate_risk_score s.current_balance s.new_message
      s.pending_queue }

/-- The decision matrix of LiquidityAgent._cash_manager_node (steps 1-5),
factored out of the early-return wrapper: install the decision result and
extend the decision log with the reasoning trail. -/
def cash_manager_core (A : LiquidityAgent) (s : AgentState) : AgentState :=
  { s with
    decision_result := some (cashManagerResult A s),
    decision_log := s.decision_log ++ cash_manager_reasoning A s.new_message
      s.current_balance s.incoming_projections }

/-- LiquidityAgent._cash_manager_node: skip the matrix when the guardrail
stage already installed a REJECT decision. -/
def cash_manager_node (A : LiquidityAgent) (s : AgentState) : AgentState :=
  if (s.decision_result.map DecisionResult.decision) = some "REJECT" then s
  else cash_manager_core A s

/-- LiquidityAgent._should_execute: route on the decision, defaulting to
QUEUE when no decision result exists. -/
def should_execute (s : AgentState) : String :=
  match s.decision_result with
  | some r => r.decision
  | none => "QUEUE"

/-- LiquidityAgent._execute_settlement_node: an implicit repo raises the
balance to the instruction amount when short, then the amount is debited,
the settled total bumped and liquidity_after recorded. -/
def execute_settlement_node (s : AgentState) : AgentState :=
  let m := s.new_message
  let repoNeeded : Bool := decide (s.current_balance < m.amount)
  let repoLog := if repoNeeded then [repoLogMsg (m.amount - s.current_balance)]
    else []
  let bal1 := if repoNeeded then m.amount else s.current_balance
  let new_balance := bal1 - m.amount
  { s with
    current_balance := new_balance,
    total_settled_today := s.total_settled_today + m.amount,
    decision_result := s.decision_result.map
      (fun r => { r with liquidity_after := some new_balance }),
    decision_log := s.decision_log ++ repoLog ++
      [settledLogMsg m.amount new_balance] }

/-- LiquidityAgent._update_state_node: on QUEUE append the instruction to the
pending queue and bump the delayed total, then recompute the state's risk
score from the post-update balance and queue.  The wall-clock last_update
stamp is outside the embedding. -/
def update_state_node (s : AgentState) : AgentState :=
  let m := s.new_message
  let decision := match s.decision_result with
    | some r => r.decision
    | none => "QUEUE"
  let s1 :=
    if decision = "QUEUE" then
      { s with pending_queue := s.pending_queue ++ [m],
               total_delayed_today := s.total_delayed_today + m.amount,
               decision_log := s.decision_log ++ [queuedLogMsg m.msg_id] }
    else s
  { s1 with risk_score := calculate_risk_score s1.current_balance m s1.pending_queue }

/-- The compiled LangGraph workflow of LiquidityAgent._build_graph: guardrail
check, then the cash manager, then settlement execution only on a SETTLE
decision, then the state update. -/
def run_graph (A : LiquidityAgent) (s0 : AgentState) : AgentState :=
  let s1 := check_guardrails_node A s0
  let s2 := cash_manager_node A s1
  let s3 := if should_execute s2 = "SETTLE" then execute_settlement_node s2 else s2
  update_state_node s3

/-- The agent state process_message builds from a snapshot (the snapshot's
queue and projections are shallow-copied; the decision log starts empty). -/
def initial_state (m : ISO20022Message) (snap : LiquiditySnapshot) : AgentState :=
  { current_balance := snap.current_balance,
    pending_queue := snap.pending_queue,
    incoming_projections := snap.incoming_projections,
    risk_score := snap.risk_score,
    decision_log := [],
    new_message := m,
    decision_result := none,
    total_settled_today := snap.total_settled_today,
    total_delayed_today := snap.total_delayed_today }

/-- LiquidityAgent.process_message: run the graph on the copied state and
return only the decision result — the final graph state (balance, queue,
totals, risk) is discarded and the caller's snapshot is not modified. -/
def process_message (A : LiquidityAgent) (m : ISO20022Message)
    (current_state : LiquiditySnapshot) : Option DecisionResult :=
  (run_graph A (initial_state m current_state)).decision_result

/-- The spec's risk threshold table (spec section 4.2), written from the
spec's words for comparison with calculate_risk_score. -/
def riskTableSpec (buffer_ratio : ℚ) : ℚ :=
  if 2 ≤ buffer_ratio then 0
  else if 1 ≤ buffer_ratio then 0.2
  else if 0.5 ≤ buffer_ratio then 0.5
  else if 0.2 ≤ buffer_ratio then 0.7
  else 1

/-- The id of a burn action. -/
def actId : BurnAction → Nat
  | .full i _ => i
  | .split i _ _ _ => i

/-- The (id, original amount) pair of a burn action. -/
def actPair : BurnAction → Nat × ℚ
  | .full i a => (i, a)
  | .split i a0 _ _ => (i, a0)

/-- How much of the owner's ACTIVE value one burn action removes from the
ledger, counting the duplicate remainder token the split branch appends:
a full burn removes the token's amount; the split branch turns one ACTIVE
token of amount a0 into two ACTIVE tokens of amount na each. -/
def actDelta : BurnAction → ℚ
  | .full _ amt => amt
  | .split _ a0 na _ => a0 - 2 * na

/-- The post-burn ACTIVE contribution of a token with id/amount pair p: zero
if it was fully burned, the written-back remainder if it was the split token,
its own amount otherwise. -/
def afterAmt (acts : List BurnAction) (p : Nat × ℚ) : ℚ :=
  if (fullIds acts).contains p.1 then 0
  else
    match splitOf acts with
    | some (i, _, na, _) => if p.1 = i then na else p.2
    | none => p.2

/-!  Concrete scenarios used by the claim theorems and witnesses. -/

/-- Ledger with the default $1B bank deposit plus two deposits for account A:
$30M then $40M (FIFO order oldest first) — the partial-burn example of the
spec. -/
def ledgerAB : UnifiedLedger :=
  (mint_deposit (mint_deposit (UnifiedLedger.init 1000000000) "A" 30000000).1
    "A" 40000000).1

/-- The $50M burn against A's deposits on ledgerAB. -/
def burnAB : UnifiedLedger × List Nat := burn_deposit ledgerAB "A" 50000000

/-- The $50M atomic settlement from A to B on ledgerAB. -/
def settleAB : UnifiedLedger × AtomicSettlement :=
  execute_atomic_settlement ledgerAB "A" "B" 50000000

/-- Ledger where account C holds a single $10 deposit. -/
def ledgerC : UnifiedLedger :=
  (mint_deposit (UnifiedLedger.init 1000000000) "C" 10).1

/-- Burning $20 against C's single $10 deposit (insufficient balance). -/
def burnC : UnifiedLedger × List Nat := burn_deposit ledgerC "C" 20

/-- Self-settlement: $50 from the bank account to itself on a fresh ledger. -/
def settleSelf : UnifiedLedger × AtomicSettlement :=
  execute_atomic_settlement (UnifiedLedger.init 1000000000) "BANK-001"
    "BANK-001" 50

/-- The $500M URGENT sovereign instruction of the example scenario. -/
def msgUrgent500 : ISO20022Message :=
  { msg_id := "MSG-URGENT-500M", priority := "URGENT", amount := 500000000,
    is_sovereign := true }

/-- A $10M-balance snapshot with empty queue and no projections. -/
def snap10M : LiquiditySnapshot :=
  { current_balance := 10000000, pending_queue := [],
    incoming_projections := [], risk_score := 0,
    total_settled_today := 0, total_delayed_today := 0 }

/-- A $2B instruction (over the default $1B variance cap). -/
def msgOver2B : ISO20022Message :=
  { msg_id := "MSG-OVER-2B", priority := "URGENT", amount := 2000000000,
    is_sovereign := true }

/-- A $1.5B instruction (over the cap, for the REJECT leg of the scenario). -/
def msgOver15 : ISO20022Message :=
  { msg_id := "MSG-OVER-1500M", priority := "URGENT", amount := 1500000000,
    is_sovereign := true }

/-- A $900M URGENT instruction: above 80% of the default $1B cap, below the
cap, and within balance for the $1B snapshot. -/
def msg900M : ISO20022Message :=
  { msg_id := "MSG-900M", priority := "URGENT", amount := 900000000,
    is_sovereign := false }

/-- A $1B-balance snapshot. -/
def snap1B : LiquiditySnapshot :=
  { current_balance := 1000000000, pending_queue := [],
    incoming_projections := [], risk_score := 0,
    total_settled_today := 0, total_delayed_today := 0 }

/-- A $100 NORMAL instruction for the queueing scenario. -/
def msgQ : ISO20022Message :=
  { msg_id := "MSG-QUEUE-100", priority := "NORMAL", amount := 100,
    is_sovereign := false }

/-- A $50 NORMAL instruction sitting in a pending queue. -/
def msgQ50 : ISO20022Message :=
  { msg_id := "MSG-PENDING-50", priority := "NORMAL", amount := 50,
    is_sovereign := false }

/-- A $100M balance with a projected $1000 inflow and an empty queue. -/
def snapQa : LiquiditySnapshot :=
  { current_balance := 100000000, pending_queue := [],
    incoming_projections := [("T1", 1000)], risk_score := 0,
    total_settled_today := 0, total_delayed_today := 0 }

/-- The same snapshot but with one $50 instruction already queued. -/
def snapQb : LiquiditySnapshot :=
  { current_balance := 100000000, pending_queue := [msgQ50],
    incoming_projections := [("T1", 1000)], risk_score := 0,
    total_settled_today := 0, total_delayed_today := 0 }

/-- A NORMAL $1 instruction for the risk-score witness. -/
def msgRisk : ISO20022Message :=
  { msg_id := "MSG-RISK-1", priority := "NORMAL", amount := 1,
    is_sovereign := false }


/-- The agent with every default: $1B initial balance, $1B variance cap, 50%
pool cap, and a liquidity pool equal to the $1B initial balance. -/
def agentDefault : LiquidityAgent := mkLiquidityAgent

/-- An agent with a $2B initial balance (hence a $2B liquidity pool) and the
default caps. -/
def agentPool2B : LiquidityAgent := mkLiquidityAgent 2000000000

section LedgerLemmas

theorem insertByTime_perm (t : TokenizedDeposit) (l : List TokenizedDeposit) :
    (insertByTime t l).Perm (t :: l) := by
  induction l with
  | nil => simp [insertByTime]
  | cons u us ih =>
    simp only [insertByTime]
    split
    · exact ((ih.cons u).trans (List.Perm.swap t u us))
    · exact List.Perm.refl _

theorem foldl_insert_perm (l acc : List TokenizedDeposit) :
    (l.foldl (fun a t => insertByTime t a) acc).Perm (acc ++ l) := by
  induction l generalizing acc with
  | nil => simp
  | cons t ts ih =>
    have h1 : (List.foldl (fun a t => insertByTime t a) (insertByTime t acc) ts).Perm
        (insertByTime t acc ++ ts) := ih _
    have h2 : (insertByTime t acc ++ ts).Perm ((t :: acc) ++ ts) :=
      (insertByTime_perm t acc).append_right ts
    have h3 : ((t :: acc) ++ ts).Perm (acc ++ t :: ts) := by
      simpa using List.perm_middle.symm
    exact (h1.trans h2).trans h3

theorem sortByTime_perm (l : List TokenizedDeposit) : (sortByTime l).Perm l := by
  have h := foldl_insert_perm l []
  simpa [sortByTime] using h

theorem burnLoop_actPair_sublist (ts : List TokenizedDeposit) (r : ℚ) :
    ((burnLoop ts r).map actPair).Sublist
      (ts.map (fun t => (t.token_id, t.amount))) := by
  induction ts generalizing r with
  | nil => simp [burnLoop]
  | cons t ts ih =>
    simp only [burnLoop]
    split
    · exact List.nil_sublist _
    · split
      · simpa [actPair] using (ih (r - t.amount)).cons₂ (t.token_id, t.amount)
      · simp [actPair]

theorem burnLoop_actDelta_le (ts : List TokenizedDeposit) (r : ℚ) (hr : 0 ≤ r) :
    (((burnLoop ts r).map actDelta).sum) ≤ r := by
  induction ts generalizing r with
  | nil => simpa [burnLoop]
  | cons t ts ih =>
    simp only [burnLoop]
    split
    · simpa using hr
    · rename_i hpos
      split
      · rename_i hle
        have ih' := ih (r - t.amount) (by linarith)
        simp only [List.map_cons, List.sum_cons, actDelta]
        linarith
      · rename_i hgt
        push_neg at hpos hgt
        simp only [List.map_cons, List.map_nil, List.sum_cons, List.sum_nil,
          actDelta]
        linarith

theorem burnLoop_split_pos (ts : List TokenizedDeposit) (r : ℚ) (i : Nat)
    (a0 na : ℚ) (c : String)
    (h : BurnAction.split i a0 na c ∈ burnLoop ts r) : 0 < na := by
  induction ts generalizing r with
  | nil => simp [burnLoop] at h
  | cons t ts ih =>
    simp only [burnLoop] at h
    split at h
    · simp at h
    · rename_i hpos
      split at h
      · rcases List.mem_cons.1 h with h1 | h2
        · exact absurd h1 (by simp)
        · exact ih _ h2
      · rename_i hgt
        push_neg at hpos hgt
        simp only [List.mem_singleton, BurnAction.split.injEq] at h
        obtain ⟨_, rfl, rfl, _⟩ := h
        linarith

theorem burnLoop_shape (ts : List TokenizedDeposit) (r : ℚ) :
    (∃ ps : List (Nat × ℚ),
        burnLoop ts r = ps.map (fun p => BurnAction.full p.1 p.2)) ∨
    (∃ (ps : List (Nat × ℚ)) (i : Nat) (a0 na : ℚ) (c : String),
        burnLoop ts r = ps.map (fun p => BurnAction.full p.1 p.2)
          ++ [BurnAction.split i a0 na c]) := by
  induction ts generalizing r with
  | nil => exact Or.inl ⟨[], rfl⟩
  | cons t ts ih =>
    simp only [burnLoop]
    split
    · exact Or.inl ⟨[], rfl⟩
    · split
      · rcases ih (r - t.amount) with ⟨ps, hps⟩ | ⟨ps, i, a0, na, c, hps⟩
        · exact Or.inl ⟨(t.token_id, t.amount) :: ps, by simp [hps]⟩
        · exact Or.inr ⟨(t.token_id, t.amount) :: ps, i, a0, na, c, by simp [hps]⟩
      · exact Or.inr ⟨[], t.token_id, t.amount, t.amount - r, t.currency, by simp⟩

theorem fullIds_full_map (ps : List (Nat × ℚ)) :
    fullIds (ps.map (fun p => BurnAction.full p.1 p.2)) = ps.map Prod.fst := by
  induction ps with
  | nil => rfl
  | cons p ps ih => simp [fullIds, List.filterMap_cons] at ih ⊢; exact ih

theorem splitOf_full_map (ps : List (Nat × ℚ)) :
    splitOf (ps.map (fun p => BurnAction.full p.1 p.2)) = none := by
  induction ps with
  | nil => rfl
  | cons p ps ih => simp [splitOf, List.filterMap_cons, ih]

theorem fullIds_append_split (ps : List (Nat × ℚ)) (i : Nat) (a0 na : ℚ)
    (c : String) :
    fullIds (ps.map (fun p => BurnAction.full p.1 p.2)
      ++ [BurnAction.split i a0 na c]) = ps.map Prod.fst := by
  have h := fullIds_full_map ps
  simp only [fullIds, List.filterMap_append] at h ⊢
  simp [h]

theorem splitOf_append_split (ps : List (Nat × ℚ)) (i : Nat) (a0 na : ℚ)
    (c : String) :
    splitOf (ps.map (fun p => BurnAction.full p.1 p.2)
      ++ [BurnAction.split i a0 na c]) = some (i, a0, na, c) := by
  have h : (ps.map (fun p => BurnAction.full p.1 p.2)).filterMap
      (fun a => match a with
        | .full _ _ => none
        | .split j b0 nb d => some (j, b0, nb, d)) = [] := by
    induction ps with
    | nil => rfl
    | cons p ps ih => simp [List.filterMap_cons, ih]
  simp [splitOf, List.filterMap_append, h]

theorem map_actId_eq_fst_actPair (acts : List BurnAction) :
    (acts.map actPair).map Prod.fst = acts.map actId := by
  induction acts with
  | nil => rfl
  | cons a acts ih =>
    cases a <;> simp [actPair, actId] at ih ⊢ <;> exact ih

theorem splitOf_mem (acts : List BurnAction) (i : Nat) (a0 na : ℚ) (c : String)
    (h : splitOf acts = some (i, a0, na, c)) :
    BurnAction.split i a0 na c ∈ acts := by
  induction acts with
  | nil => simp [splitOf] at h
  | cons a acts ih =>
    cases a with
    | full j b =>
      simp only [splitOf, List.filterMap_cons] at h ih
      exact List.mem_cons_of_mem _ (ih h)
    | split j b0 nb d =>
      simp only [splitOf, List.filterMap_cons, List.head?_cons,
        Option.some.injEq] at h
      obtain ⟨rfl, rfl, rfl, rfl⟩ := h
      exact List.mem_cons_self _ _

theorem sum_map_sub {α : Type} (l : List α) (f g : α → ℚ) :
    ((l.map fun x => f x - g x).sum) = (l.map f).sum - (l.map g).sum := by
  induction l with
  | nil => simp
  | cons x l ih => simp [ih]; ring

theorem sum_map_eq_sum_filter {α : Type} (l : List α) (f : α → ℚ)
    (q : α → Bool) (h : ∀ x ∈ l, q x = false → f x = 0) :
    (l.map f).sum = ((l.filter q).map f).sum := by
  induction l with
  | nil => rfl
  | cons x l ih =>
    have ih' := ih (fun y hy => h y (List.mem_cons_of_mem _ hy))
    by_cases hq : q x = true
    · simp [List.filter_cons, hq, ih']
    · have hx : f x = 0 := h x (List.mem_cons_self _ _) (by simpa using hq)
      simp [List.filter_cons, hq, ih', hx]

theorem filter_contains_of_sublist (l₁ l₂ : List (Nat × ℚ))
    (hsub : l₁.Sublist l₂) (hnd : (l₂.map Prod.fst).Nodup) :
    l₂.filter (fun p => (l₁.map Prod.fst).contains p.1) = l₁ := by
  induction hsub with
  | slnil => rfl
  | @cons l₁ l₂ a h ih =>
    simp only [List.map_cons, List.nodup_cons] at hnd
    obtain ⟨ha, hnd₂⟩ := hnd
    have hsubf : (l₁.map Prod.fst).Sublist (l₂.map Prod.fst) := h.map _
    have hna : a.1 ∉ l₁.map Prod.fst := fun hmem => ha (hsubf.subset hmem)
    rw [List.filter_cons, if_neg (by simpa using hna), ih hnd₂]
  | @cons₂ l₁ l₂ a h ih =>
    simp only [List.map_cons, List.nodup_cons] at hnd
    obtain ⟨ha, hnd₂⟩ := hnd
    have htail : l₂.filter (fun p => ((a :: l₁).map Prod.fst).contains p.1)
        = l₂.filter (fun p => (l₁.map Prod.fst).contains p.1) := by
      apply List.filter_congr
      intro p hp
      have hne : p.1 ≠ a.1 := by
        intro he
        exact ha (he ▸ List.mem_map_of_mem Prod.fst hp)
      simp [hne]
    rw [List.filter_cons, if_pos (by simp), htail, ih hnd₂]

theorem mem_actId_of_mem_fullIds (acts : List BurnAction) (i : Nat)
    (h : i ∈ fullIds acts) : i ∈ acts.map actId := by
  induction acts with
  | nil => simp [fullIds] at h
  | cons a acts ih =>
    cases a with
    | full j b =>
      simp only [fullIds, List.filterMap_cons] at h
      rcases List.mem_cons.1 h with h1 | h2
      · simp [actId, h1]
      · exact List.mem_cons_of_mem _ (ih h2)
    | split j b0 nb d =>
      simp only [fullIds, List.filterMap_cons] at h
      exact List.mem_cons_of_mem _ (ih h)

theorem applyBurnTok_owner (acts : List BurnAction) (t : TokenizedDeposit) :
    (applyBurnTok acts t).owner = t.owner := by
  unfold applyBurnTok
  split
  · rfl
  · split
    · split <;> rfl
    · rfl

theorem applyBurnTok_eq_of_not_mem (acts : List BurnAction)
    (t : TokenizedDeposit) (h : t.token_id ∉ acts.map actId) :
    applyBurnTok acts t = t := by
  have hf : ¬ t.token_id ∈ fullIds acts := fun hm =>
    h (mem_actId_of_mem_fullIds acts _ hm)
  unfold applyBurnTok
  rw [if_neg (by simpa using hf)]
  cases hs : splitOf acts with
  | none => rfl
  | some q =>
    obtain ⟨i, a0, na, c⟩ := q
    have hmem := splitOf_mem acts i a0 na c hs
    have hi : t.token_id ≠ i := by
      intro he
      exact h (he ▸ (List.mem_map.2 ⟨_, hmem, rfl⟩))
    simp [hi]

theorem filter_map_eq_of_fix {α : Type} (ds : List α) (f : α → α)
    (q : α → Bool) (hfix : ∀ t ∈ ds, q t = true → f t = t)
    (hq : ∀ t ∈ ds, q (f t) = q t) :
    (ds.map f).filter q = ds.filter q := by
  induction ds with
  | nil => rfl
  | cons t ds ih =>
    have ih' := ih (fun y hy h => hfix y (List.mem_cons_of_mem _ hy) h)
      (fun y hy => hq y (List.mem_cons_of_mem _ hy))
    by_cases ht : q t = true
    · have := hfix t (List.mem_cons_self _ _) ht
      simp [List.filter_cons, hq t (List.mem_cons_self _ _), ht, this, ih']
    · have hft : q (f t) = false := by
        rw [hq t (List.mem_cons_self _ _)]
        simpa using ht
      simp [List.filter_cons, hft, (by simpa using ht : q t = false), ih']

theorem filter_map_applyBurn_sum (acts : List BurnAction) (own : String)
    (ds : List TokenizedDeposit) :
    (((ds.map (applyBurnTok acts)).filter (ownActive own)).map
      TokenizedDeposit.amount).sum
    = ((ds.filter (ownActive own)).map
        (fun t => afterAmt acts (t.token_id, t.amount))).sum := by
  induction ds with
  | nil => rfl
  | cons t ds ih =>
    simp only [List.map_cons, List.filter_cons, ownActive]
    by_cases hf : t.token_id ∈ fullIds acts
    · have h1 : applyBurnTok acts t = { t with status := "BURNED" } := by
        simp [applyBurnTok, hf]
      have h2 : afterAmt acts (t.token_id, t.amount) = 0 := by
        simp [afterAmt, hf]
      rw [h1]
      by_cases hp : (t.owner == own && t.status == "ACTIVE") = true
      · simp [hp, h2, ih]
      · simp only [Bool.not_eq_true] at hp
        simp [hp, ih]
    · cases hs : splitOf acts with
      | none =>
        have h1 : applyBurnTok acts t = t := by simp [applyBurnTok, hf, hs]
        have h2 : afterAmt acts (t.token_id, t.amount) = t.amount := by
          simp [afterAmt, hf, hs]
        rw [h1]
        by_cases hp : (t.owner == own && t.status == "ACTIVE") = true
        · simp [hp, h2, ih]
        · simp only [Bool.not_eq_true] at hp
          simp [hp, ih]
      | some q =>
        obtain ⟨i, a0, na, c⟩ := q
        by_cases hi : t.token_id = i
        · have hf2 : i ∉ fullIds acts := hi ▸ hf
          have h1 : applyBurnTok acts t = { t with amount := na } := by
            simp [applyBurnTok, hf2, hs, hi]
          have h2 : afterAmt acts (t.token_id, t.amount) = na := by
            simp [afterAmt, hf2, hs, hi]
          rw [h1]
          by_cases hp : (t.owner == own && t.status == "ACTIVE") = true
          · simp [hp, h2, ih]
          · simp only [Bool.not_eq_true] at hp
            simp [hp, ih]
        · have h1 : applyBurnTok acts t = t := by simp [applyBurnTok, hf, hs, hi]
          have h2 : afterAmt acts (t.token_id, t.amount) = t.amount := by
            simp [afterAmt, hf, hs, hi]
          rw [h1]
          by_cases hp : (t.owner == own && t.status == "ACTIVE") = true
          · simp [hp, h2, ih]
          · simp only [Bool.not_eq_true] at hp
            simp [hp, ih]

theorem avail_ids_nodup (L : UnifiedLedger) (own : String) (hWF : WF L) :
    ((sortByTime (L.tokenized_deposits.filter (ownActive own))).map
        TokenizedDeposit.token_id).Nodup := by
  have h1 : ((L.tokenized_deposits.filter (ownActive own)).map
        TokenizedDeposit.token_id).Nodup :=
    ((List.filter_sublist _).map _).nodup hWF.1
  have hperm := (sortByTime_perm (L.tokenized_deposits.filter
    (ownActive own))).map TokenizedDeposit.token_id
  exact hperm.nodup_iff.mpr h1

theorem map_actPair_full (ps : List (Nat × ℚ)) :
    (ps.map (fun p => BurnAction.full p.1 p.2)).map actPair = ps := by
  induction ps with
  | nil => rfl
  | cons p ps ih => simp [actPair, ih]

theorem map_actDelta_full (ps : List (Nat × ℚ)) :
    (ps.map (fun p => BurnAction.full p.1 p.2)).map actDelta
      = ps.map (fun p => p.2) := by
  induction ps with
  | nil => rfl
  | cons p ps ih => simp [actDelta, ih]

theorem burn_bridge (avail : List TokenizedDeposit) (r : ℚ)
    (hnd : (avail.map TokenizedDeposit.token_id).Nodup) :
    ((avail.map (fun t =>
        t.amount - afterAmt (burnLoop avail r) (t.token_id, t.amount))).sum)
      = (((burnLoop avail r).map actDelta).sum)
        + (match splitOf (burnLoop avail r) with
           | some (_, _, na, _) => na
           | none => 0) := by
  set acts := burnLoop avail r with hactsdef
  set pairs := avail.map (fun t => (t.token_id, t.amount)) with hpairs
  have h0 : (avail.map (fun t =>
      t.amount - afterAmt acts (t.token_id, t.amount))).sum
      = (pairs.map (fun p => p.2 - afterAmt acts p)).sum := by
    rw [hpairs, List.map_map]
    rfl
  have hnd_pairs : (pairs.map Prod.fst).Nodup := by
    rw [hpairs, List.map_map]
    simpa [Function.comp] using hnd
  have hsub : (acts.map actPair).Sublist pairs := burnLoop_actPair_sublist avail r
  have hfilter : pairs.filter
      (fun p => ((acts.map actPair).map Prod.fst).contains p.1)
      = acts.map actPair := filter_contains_of_sublist _ _ hsub hnd_pairs
  have hzero : ∀ p ∈ pairs,
      (((acts.map actPair).map Prod.fst).contains p.1) = false →
      (p.2 - afterAmt acts p) = 0 := by
    intro p _ hc
    have hnotid : p.1 ∉ acts.map actId := by
      rw [map_actId_eq_fst_actPair] at hc
      simpa using hc
    have hnf : p.1 ∉ fullIds acts := fun hm =>
      hnotid (mem_actId_of_mem_fullIds acts _ hm)
    cases hs : splitOf acts with
    | none => simp [afterAmt, hnf, hs]
    | some q =>
      obtain ⟨i, a0, na, c⟩ := q
      have hpi : p.1 ≠ i := by
        intro he
        exact hnotid (he ▸ List.mem_map.2 ⟨_, splitOf_mem acts i a0 na c hs, rfl⟩)
      simp [afterAmt, hnf, hs, hpi]
  have h1 : (pairs.map (fun p => p.2 - afterAmt acts p)).sum
      = ((acts.map actPair).map (fun p => p.2 - afterAmt acts p)).sum := by
    rw [sum_map_eq_sum_filter pairs _
      (fun p => ((acts.map actPair).map Prod.fst).contains p.1) hzero, hfilter]
  rcases burnLoop_shape avail r with ⟨ps, hsh⟩ | ⟨ps, i, a0, na, c, hsh⟩
  · have hsplit : splitOf acts = none := by rw [hactsdef, hsh, splitOf_full_map]
    have hfull : fullIds acts = ps.map Prod.fst := by
      rw [hactsdef, hsh, fullIds_full_map]
    have hacts2 : acts.map actPair = ps := by
      rw [hactsdef, hsh, map_actPair_full]
    have h2 : ((acts.map actPair).map (fun p => p.2 - afterAmt acts p)).sum
        = (ps.map (fun p => p.2)).sum := by
      rw [hacts2]
      apply congrArg
      apply List.map_congr_left
      intro p hp
      have hmem : p.1 ∈ fullIds acts := by
        rw [hfull]
        exact List.mem_map_of_mem Prod.fst hp
      simp [afterAmt, hmem]
    have h3 : (acts.map actDelta).sum = (ps.map (fun p => p.2)).sum := by
      rw [hactsdef, hsh, map_actDelta_full]
    rw [h0, h1, h2, hsplit, h3]
    ring
  · have hsplit : splitOf acts = some (i, a0, na, c) := by
      rw [hactsdef, hsh, splitOf_append_split]
    have hfull : fullIds acts = ps.map Prod.fst := by
      rw [hactsdef, hsh, fullIds_append_split]
    have hndact : ((acts.map actPair).map Prod.fst).Nodup :=
      (hsub.map Prod.fst).nodup hnd_pairs
    have hacts2 : acts.map actPair = ps ++ [(i, a0)] := by
      rw [hactsdef, hsh, List.map_append, map_actPair_full]
      simp [actPair]
    have hni : i ∉ ps.map Prod.fst := by
      rw [hacts2] at hndact
      simp only [List.map_append] at hndact
      rcases List.nodup_append.1 hndact with ⟨_, _, hdisj⟩
      intro hmem
      exact hdisj hmem (by simp)
    have hnif : i ∉ fullIds acts := by
      rw [hfull]
      exact hni
    have h2 : ((acts.map actPair).map (fun p => p.2 - afterAmt acts p)).sum
        = (ps.map (fun p => p.2)).sum + (a0 - na) := by
      rw [hacts2, List.map_append, List.sum_append]
      have hfulls : (ps.map (fun p => p.2 - afterAmt acts p)).sum
          = (ps.map (fun p => p.2)).sum := by
        apply congrArg
        apply List.map_congr_left
        intro p hp
        have hmem : p.1 ∈ fullIds acts := by
          rw [hfull]
          exact List.mem_map_of_mem Prod.fst hp
        simp [afterAmt, hmem]
      have hsplitval : afterAmt acts (i, a0) = na := by
        simp [afterAmt, hnif, hsplit]
      rw [hfulls]
      simp [hsplitval]
    have h3 : (acts.map actDelta).sum
        = (ps.map (fun p => p.2)).sum + (a0 - 2 * na) := by
      rw [hactsdef, hsh, List.map_append, List.sum_append, map_actDelta_full]
      simp [actDelta]
    rw [h0, h1, h2, hsplit, h3]
    ring

theorem burn_deposit_deposits (L : UnifiedLedger) (own : String) (amount : ℚ) :
    (burn_deposit L own amount).1.tokenized_deposits
      = (match splitOf (burnLoop (sortByTime
          (L.tokenized_deposits.filter (ownActive own))) amount) with
         | some (_, _, na, c) =>
            (L.tokenized_deposits.map (applyBurnTok (burnLoop (sortByTime
              (L.tokenized_deposits.filter (ownActive own))) amount)))
              ++ [{ token_id := L.next_token, owner := own, amount := na,
                    currency := c, created_at := L.next_token,
                    status := "ACTIVE" }]
         | none => L.tokenized_deposits.map (applyBurnTok (burnLoop (sortByTime
            (L.tokenized_deposits.filter (ownActive own))) amount))) := by
  simp only [burn_deposit]

theorem burn_deposit_state (L : UnifiedLedger) (own : String) (amount : ℚ) :
    (burn_deposit L own amount).1.ledger_state
      = (match lookupBal L.ledger_state own with
         | some v => setBal L.ledger_state own (v - amount)
         | none => L.ledger_state) := by
  simp only [burn_deposit]

theorem burn_deposit_total (L : UnifiedLedger) (own : String) (amount : ℚ)
    (hWF : WF L) :
    get_total_tokenized_balance (burn_deposit L own amount).1 own
      = get_total_tokenized_balance L own
        - (((burnLoop (sortByTime (L.tokenized_deposits.filter
            (ownActive own))) amount).map actDelta).sum) := by
  have hnd := avail_ids_nodup L own hWF
  have hres := burn_deposit_deposits L own amount
  have hbr := burn_bridge (sortByTime
    (L.tokenized_deposits.filter (ownActive own))) amount hnd
  have hperm : ((sortByTime (L.tokenized_deposits.filter (ownActive own))).map
      (fun t => t.amount - afterAmt (burnLoop (sortByTime
        (L.tokenized_deposits.filter (ownActive own))) amount)
          (t.token_id, t.amount))).sum
      = ((L.tokenized_deposits.filter (ownActive own)).map
          (fun t => t.amount - afterAmt (burnLoop (sortByTime
            (L.tokenized_deposits.filter (ownActive own))) amount)
              (t.token_id, t.amount))).sum :=
    ((sortByTime_perm _).map _).sum_eq
  have hsubm : ((L.tokenized_deposits.filter (ownActive own)).map
      (fun t => t.amount - afterAmt (burnLoop (sortByTime
        (L.tokenized_deposits.filter (ownActive own))) amount)
          (t.token_id, t.amount))).sum
      = get_total_tokenized_balance L own
        - ((L.tokenized_deposits.filter (ownActive own)).map
            (fun t => afterAmt (burnLoop (sortByTime
              (L.tokenized_deposits.filter (ownActive own))) amount)
                (t.token_id, t.amount))).sum := by
    rw [sum_map_sub]
    simp [get_total_tokenized_balance]
  cases hsq : splitOf (burnLoop (sortByTime
      (L.tokenized_deposits.filter (ownActive own))) amount) with
  | none =>
    simp only [hsq] at hres hbr
    have hafter : get_total_tokenized_balance (burn_deposit L own amount).1 own
        = ((L.tokenized_deposits.filter (ownActive own)).map
            (fun t => afterAmt (burnLoop (sortByTime
              (L.tokenized_deposits.filter (ownActive own))) amount)
                (t.token_id, t.amount))).sum := by
      unfold get_total_tokenized_balance
      rw [hres, filter_map_applyBurn_sum]
    rw [hafter]
    rw [hperm, hsubm] at hbr
    linear_combination -hbr
  | some q =>
    obtain ⟨i, a0, na, c⟩ := q
    simp only [hsq] at hres hbr
    have hafter : get_total_tokenized_balance (burn_deposit L own amount).1 own
        = ((L.tokenized_deposits.filter (ownActive own)).map
            (fun t => afterAmt (burnLoop (sortByTime
              (L.tokenized_deposits.filter (ownActive own))) amount)
                (t.token_id, t.amount))).sum + na := by
      unfold get_total_tokenized_balance
      rw [hres]
      rw [List.filter_append, List.map_append, List.sum_append,
        filter_map_applyBurn_sum]
      simp [ownActive]
    rw [hafter]
    rw [hperm, hsubm] at hbr
    linear_combination -hbr

theorem burn_no_overdraw (L : UnifiedLedger) (own : String) (amount : ℚ)
    (hWF : WF L) (hamt : 0 ≤ amount) :
    get_total_tokenized_balance L own - amount
      ≤ get_total_tokenized_balance (burn_deposit L own amount).1 own := by
  rw [burn_deposit_total L own amount hWF]
  have h := burnLoop_actDelta_le
    (sortByTime (L.tokenized_deposits.filter (ownActive own))) amount hamt
  linarith

theorem sum_filter_amount_nonneg (ds : List TokenizedDeposit)
    (q : TokenizedDeposit → Bool) (h : ∀ t ∈ ds, 0 ≤ t.amount) :
    0 ≤ ((ds.filter q).map TokenizedDeposit.amount).sum := by
  apply List.sum_nonneg
  intro x hx
  obtain ⟨t, ht, rfl⟩ := List.mem_map.1 hx
  exact h t (List.mem_of_mem_filter ht)

theorem splitOf_burnLoop_nonneg (ts : List TokenizedDeposit) (r : ℚ)
    (i : Nat) (a0 na : ℚ) (c : String)
    (h : splitOf (burnLoop ts r) = some (i, a0, na, c)) : 0 ≤ na :=
  le_of_lt (burnLoop_split_pos ts r i a0 na c (splitOf_mem _ _ _ _ _ h))

theorem applyBurnTok_amount_nonneg (acts : List BurnAction)
    (t : TokenizedDeposit) (h : 0 ≤ t.amount)
    (hna : ∀ i a0 na c, splitOf acts = some (i, a0, na, c) → 0 ≤ na) :
    0 ≤ (applyBurnTok acts t).amount := by
  unfold applyBurnTok
  split
  · exact h
  · split
    · rename_i q i a0 na c heq
      split
      · exact hna _ _ _ _ heq
      · exact h
    · exact h

theorem burn_deposit_amounts_nonneg (L : UnifiedLedger) (own : String)
    (amount : ℚ) (hpos : ∀ t ∈ L.tokenized_deposits, 0 ≤ t.amount) :
    ∀ t ∈ (burn_deposit L own amount).1.tokenized_deposits, 0 ≤ t.amount := by
  intro t ht
  rw [burn_deposit_deposits] at ht
  cases hsq : splitOf (burnLoop (sortByTime
      (L.tokenized_deposits.filter (ownActive own))) amount) with
  | none =>
    simp only [hsq] at ht
    obtain ⟨u, hu, rfl⟩ := List.mem_map.1 ht
    exact applyBurnTok_amount_nonneg _ _ (hpos u hu)
      (fun i a0 na c hh => splitOf_burnLoop_nonneg _ _ i a0 na c hh)
  | some q =>
    obtain ⟨i, a0, na, c⟩ := q
    simp only [hsq] at ht
    rcases List.mem_append.1 ht with h1 | h2
    · obtain ⟨u, hu, rfl⟩ := List.mem_map.1 h1
      exact applyBurnTok_amount_nonneg _ _ (hpos u hu)
        (fun i a0 na c hh => splitOf_burnLoop_nonneg _ _ i a0 na c hh)
    · have h3 := List.mem_singleton.1 h2
      rw [h3]
      exact splitOf_burnLoop_nonneg _ _ i a0 na c hsq

theorem burn_deposit_total_nonneg (L : UnifiedLedger) (own : String)
    (amount : ℚ) (hpos : ∀ t ∈ L.tokenized_deposits, 0 ≤ t.amount) :
    0 ≤ get_total_tokenized_balance (burn_deposit L own amount).1 own := by
  unfold get_total_tokenized_balance
  exact sum_filter_amount_nonneg _ _
    (burn_deposit_amounts_nonneg L own amount hpos)

theorem actIds_sub_own (L : UnifiedLedger) (own : String) (amount : ℚ) :
    ∀ i ∈ (burnLoop (sortByTime (L.tokenized_deposits.filter (ownActive own)))
        amount).map actId,
      ∃ u ∈ L.tokenized_deposits,
        u.token_id = i ∧ u.owner = own ∧ u.status = "ACTIVE" := by
  intro i hi
  have hsub := burnLoop_actPair_sublist
    (sortByTime (L.tokenized_deposits.filter (ownActive own))) amount
  rw [← map_actId_eq_fst_actPair] at hi
  have hi2 := (hsub.map Prod.fst).subset hi
  rw [List.map_map] at hi2
  obtain ⟨u, hu, hui⟩ := List.mem_map.1 hi2
  have hu2 : u ∈ L.tokenized_deposits.filter (ownActive own) :=
    ((sortByTime_perm _).mem_iff).1 hu
  have hprop : ownActive own u = true := List.of_mem_filter hu2
  simp only [ownActive, Bool.and_eq_true, beq_iff_eq] at hprop
  exact ⟨u, List.mem_of_mem_filter hu2, hui, hprop.1, hprop.2⟩

theorem not_mem_actIds_of_other (L : UnifiedLedger) (own : String)
    (amount : ℚ) (hWF : WF L) (t : TokenizedDeposit)
    (ht : t ∈ L.tokenized_deposits) (hown : t.owner ≠ own) :
    t.token_id ∉ (burnLoop (sortByTime
      (L.tokenized_deposits.filter (ownActive own))) amount).map actId := by
  intro hmem
  obtain ⟨u, hu, hid, huo, _⟩ := actIds_sub_own L own amount _ hmem
  have huv : u = t := List.inj_on_of_nodup_map hWF.1 hu ht hid
  exact hown (huv ▸ huo)

theorem burn_deposit_filter_owner_pred (L : UnifiedLedger) (own : String)
    (amount : ℚ) (hWF : WF L) (q : String → Bool) (hq : q own = false) :
    (burn_deposit L own amount).1.tokenized_deposits.filter (fun t => q t.owner)
      = L.tokenized_deposits.filter (fun t => q t.owner) := by
  rw [burn_deposit_deposits]
  have hfix : ∀ t ∈ L.tokenized_deposits, (q t.owner) = true →
      applyBurnTok (burnLoop (sortByTime
        (L.tokenized_deposits.filter (ownActive own))) amount) t = t := by
    intro t ht hqt
    apply applyBurnTok_eq_of_not_mem
    apply not_mem_actIds_of_other L own amount hWF t ht
    intro he
    rw [he, hq] at hqt
    exact Bool.false_ne_true hqt
  have hqpres : ∀ t ∈ L.tokenized_deposits,
      (q (applyBurnTok (burnLoop (sortByTime
        (L.tokenized_deposits.filter (ownActive own))) amount) t).owner)
      = q t.owner := by
    intro t _
    rw [applyBurnTok_owner]
  cases hsq : splitOf (burnLoop (sortByTime
      (L.tokenized_deposits.filter (ownActive own))) amount) with
  | none =>
    simp only [hsq]
    exact filter_map_eq_of_fix _ _ _ hfix hqpres
  | some qq =>
    obtain ⟨i, a0, na, c⟩ := qq
    simp only [hsq]
    rw [List.filter_append, filter_map_eq_of_fix _ _ _ hfix hqpres]
    simp [hq]

theorem setBal_cons (p : String × ℚ) (st : List (String × ℚ)) (k : String)
    (v : ℚ) :
    setBal (p :: st) k v = (if p.1 == k then (p.1, v) else p) :: setBal st k v :=
  rfl

theorem lookupBal_cons (p : String × ℚ) (st : List (String × ℚ)) (k : String) :
    lookupBal (p :: st) k = if p.1 == k then some p.2 else lookupBal st k := by
  by_cases hp : (p.1 == k) = true
  · simp [lookupBal, List.find?_cons, hp]
  · have hp' : (p.1 == k) = false := by simpa using hp
    simp [lookupBal, List.find?_cons, hp']

theorem lookupBal_setBal_self (st : List (String × ℚ)) (k : String) (v w : ℚ)
    (h : lookupBal st k = some w) : lookupBal (setBal st k v) k = some v := by
  induction st with
  | nil => simp [lookupBal] at h
  | cons p st ih =>
    rw [lookupBal_cons] at h
    rw [setBal_cons, lookupBal_cons]
    by_cases hp : (p.1 == k) = true
    · simp [hp]
    · have hp' : (p.1 == k) = false := by simpa using hp
      rw [if_neg (by simp [hp'])] at h
      simp only [hp', Bool.false_eq_true, if_false]
      exact ih h

theorem lookupBal_setBal_other (st : List (String × ℚ)) (k k' : String)
    (v : ℚ) (h : (k' == k) = false) :
    lookupBal (setBal st k v) k' = lookupBal st k' := by
  have hne : ¬ k' = k := by simpa using h
  induction st with
  | nil => rfl
  | cons p st ih =>
    rw [setBal_cons, lookupBal_cons, lookupBal_cons]
    by_cases hp : (p.1 == k) = true
    · have hpk : p.1 = k := by simpa using hp
      have h1 : (p.1 == k') = false := by
        rw [hpk]
        simp only [beq_eq_false_iff_ne, ne_eq]
        exact fun hc => hne hc.symm
      simp [hp, h1, ih]
    · have hp' : (p.1 == k) = false := by simpa using hp
      simp only [hp', Bool.false_eq_true, if_false]
      by_cases hk2 : (p.1 == k') = true
      · simp [hk2]
      · have hk2' : (p.1 == k') = false := by simpa using hk2
        simp [hk2', ih]

theorem lookupBal_append_self (st : List (String × ℚ)) (k : String) (v : ℚ)
    (h : lookupBal st k = none) : lookupBal (st ++ [(k, v)]) k = some v := by
  induction st with
  | nil => simp [lookupBal, List.find?_cons]
  | cons p st ih =>
    rw [lookupBal_cons] at h
    by_cases hp : (p.1 == k) = true
    · rw [if_pos hp] at h
      exact absurd h (by simp)
    · have hp' : (p.1 == k) = false := by simpa using hp
      rw [if_neg (by simp [hp'])] at h
      rw [List.cons_append, lookupBal_cons, if_neg (by simp [hp'])]
      exact ih h

theorem lookupBal_append_other (st : List (String × ℚ)) (k k' : String)
    (v : ℚ) (h : (k' == k) = false) :
    lookupBal (st ++ [(k, v)]) k' = lookupBal st k' := by
  have hne : ¬ k' = k := by simpa using h
  induction st with
  | nil =>
    have h1 : (k == k') = false := by
      simp only [beq_eq_false_iff_ne, ne_eq]
      exact fun hc => hne hc.symm
    simp [lookupBal, List.find?_cons, h1]
  | cons p st ih =>
    rw [List.cons_append, lookupBal_cons, lookupBal_cons]
    by_cases hk2 : (p.1 == k') = true
    · simp [hk2]
    · have hk2' : (p.1 == k') = false := by simpa using hk2
      simp [hk2', ih]

theorem mint_deposit_deposits (L : UnifiedLedger) (o : String) (a : ℚ)
    (c : String) :
    (mint_deposit L o a c).1.tokenized_deposits
      = L.tokenized_deposits ++ [(mint_deposit L o a c).2] := rfl

theorem mint_deposit_snd (L : UnifiedLedger) (o : String) (a : ℚ)
    (c : String) :
    (mint_deposit L o a c).2
      = { token_id := L.next_token, owner := o, amount := a, currency := c,
          created_at := L.next_token, status := "ACTIVE" } := rfl

theorem mint_lookup_self (L : UnifiedLedger) (o : String) (a : ℚ)
    (c : String) :
    lookupBal (mint_deposit L o a c).1.ledger_state o
      = some ((lookupBal L.ledger_state o).getD 0 + a) := by
  simp only [mint_deposit]
  cases h : lookupBal L.ledger_state o with
  | none =>
    simpa using lookupBal_append_self L.ledger_state o (0 + a) h
  | some v =>
    simpa using lookupBal_setBal_self L.ledger_state o (v + a) v h

theorem mint_lookup_other (L : UnifiedLedger) (o : String) (a : ℚ)
    (c : String) (k : String) (h : (k == o) = false) :
    lookupBal (mint_deposit L o a c).1.ledger_state k
      = lookupBal L.ledger_state k := by
  simp only [mint_deposit]
  cases hh : lookupBal L.ledger_state o with
  | none => simpa using lookupBal_append_other L.ledger_state o k (0 + a) h
  | some v => simpa using lookupBal_setBal_other L.ledger_state o k (v + a) h

theorem burn_lookup_other (L : UnifiedLedger) (own : String) (amount : ℚ)
    (k : String) (h : (k == own) = false) :
    lookupBal (burn_deposit L own amount).1.ledger_state k
      = lookupBal L.ledger_state k := by
  rw [burn_deposit_state]
  cases hh : lookupBal L.ledger_state own with
  | none => rfl
  | some v => exact lookupBal_setBal_other L.ledger_state own k (v - amount) h

end LedgerLemmas

section AgentLemmas

theorem pipeline_reject_of_over_variance (A : LiquidityAgent)
    (m : ISO20022Message) (snap : LiquiditySnapshot)
    (h : A.circuit_breaker.max_allowable_variance < m.amount) :
    (run_graph A (initial_state m snap)).decision_result
      = some (guardrailRejectResult m snap.current_balance
          (varianceBlockMsg m.amount A.circuit_breaker.max_allowable_variance))
      ∧ (run_graph A (initial_state m snap)).current_balance
          = snap.current_balance
      ∧ (run_graph A (initial_state m snap)).pending_queue = snap.pending_queue
      ∧ (run_graph A (initial_state m snap)).total_settled_today
          = snap.total_settled_today := by
  have hchk : check_transaction A.circuit_breaker m snap.current_balance
      = (false, some (varianceBlockMsg m.amount
          A.circuit_breaker.max_allowable_variance)) := by
    unfold check_transaction
    rw [if_pos h]
  have hg : check_guardrails_node A (initial_state m snap)
      = { (initial_state m snap) with
          decision_log := [guardrailBlockLog (varianceBlockMsg m.amount
            A.circuit_breaker.max_allowable_variance)],
          decision_result := some (guardrailRejectResult m snap.current_balance
            (varianceBlockMsg m.amount
              A.circuit_breaker.max_allowable_variance)) } := by
    simp only [check_guardrails_node, initial_state, hchk]
    rfl
  simp only [run_graph, hg, cash_manager_node, should_execute, update_state_node]
  simp [guardrailRejectResult, initial_state]

theorem cash_manager_decision_override (A : LiquidityAgent)
    (m : ISO20022Message) (bal : ℚ) (proj : List (String × ℚ))
    (h : should_trigger_human_override A.circuit_breaker m bal = true) :
    cash_manager_decision A m bal proj = "REQUIRE_HUMAN_OVERRIDE" := by
  unfold cash_manager_decision
  simp only [h, if_true]

set_option maxRecDepth 4096 in
theorem pipeline_override_of_large (A : LiquidityAgent)
    (m : ISO20022Message) (snap : LiquiditySnapshot)
    (hallow : (check_transaction A.circuit_breaker m snap.current_balance).1
      = true)
    (hover : should_trigger_human_override A.circuit_breaker m
      snap.current_balance = true) :
    ((run_graph A (initial_state m snap)).decision_result).map
        DecisionResult.decision = some "REQUIRE_HUMAN_OVERRIDE" := by
  have hchk : check_transaction A.circuit_breaker
      (initial_state m snap).new_message
      (initial_state m snap).current_balance
      = (true, (check_transaction A.circuit_breaker m snap.current_balance).2) := by
    rw [← hallow]
    exact Prod.mk.eta.symm
  have hg : check_guardrails_node A (initial_state m snap)
      = initial_state m snap := by
    unfold check_guardrails_node
    rw [hchk]
  have hcm0 : cash_manager_node A (initial_state m snap)
      = cash_manager_core A (initial_state m snap) := rfl
  have hcm : (cash_manager_node A (initial_state m snap)).decision_result
      = some (cashManagerResult A (initial_state m snap)) := by
    rw [hcm0]
    rfl
  have hdec : (cashManagerResult A (initial_state m snap)).decision
      = "REQUIRE_HUMAN_OVERRIDE" := by
    show cash_manager_decision A m snap.current_balance
        snap.incoming_projections = "REQUIRE_HUMAN_OVERRIDE"
    exact cash_manager_decision_override A m snap.current_balance
      snap.incoming_projections hover
  have hse : should_execute (cash_manager_node A (initial_state m snap))
      = "REQUIRE_HUMAN_OVERRIDE" := by
    unfold should_execute
    rw [hcm]
    exact hdec
  simp only [run_graph]
  rw [hg, hse, if_neg (show ¬ ("REQUIRE_HUMAN_OVERRIDE" = "SETTLE") by decide)]
  simp only [update_state_node, hcm]
  simp only [Option.map_eq_some']
  exact ⟨cashManagerResult A (initial_state m snap), by simp [hcm, hdec]⟩

theorem check_guardrails_frame (A : LiquidityAgent) (s : AgentState) :
    (check_guardrails_node A s).pending_queue = s.pending_queue
    ∧ (check_guardrails_node A s).current_balance = s.current_balance
    ∧ (check_guardrails_node A s).total_delayed_today = s.total_delayed_today
    ∧ (check_guardrails_node A s).total_settled_today = s.total_settled_today
    ∧ (check_guardrails_node A s).new_message = s.new_message := by
  unfold check_guardrails_node
  cases hc : check_transaction A.circuit_breaker s.new_message s.current_balance with
  | mk b r => cases b <;> simp

theorem cash_manager_node_frame (A : LiquidityAgent) (s : AgentState) :
    (cash_manager_node A s).pending_queue = s.pending_queue
    ∧ (cash_manager_node A s).current_balance = s.current_balance
    ∧ (cash_manager_node A s).total_delayed_today = s.total_delayed_today
    ∧ (cash_manager_node A s).total_settled_today = s.total_settled_today
    ∧ (cash_manager_node A s).new_message = s.new_message := by
  unfold cash_manager_node
  split <;> simp [cash_manager_core]

theorem execute_settlement_frame (s : AgentState) :
    (execute_settlement_node s).pending_queue = s.pending_queue
    ∧ (execute_settlement_node s).total_delayed_today = s.total_delayed_today
    ∧ (execute_settlement_node s).new_message = s.new_message := by
  unfold execute_settlement_node
  simp

theorem update_state_node_decision_result (s : AgentState) :
    (update_state_node s).decision_result = s.decision_result := by
  unfold update_state_node
  simp only []
  split <;> simp

theorem should_execute_update_state (s : AgentState) :
    should_execute (update_state_node s) = should_execute s := by
  unfold should_execute
  rw [update_state_node_decision_result]

theorem should_execute_execute_settlement (s : AgentState) :
    should_execute (execute_settlement_node s) = should_execute s := by
  unfold should_execute execute_settlement_node
  cases s.decision_result <;> simp

theorem update_state_of_queue (s : AgentState)
    (h : should_execute s = "QUEUE") :
    (update_state_node s).pending_queue = s.pending_queue ++ [s.new_message]
    ∧ (update_state_node s).total_delayed_today
        = s.total_delayed_today + s.new_message.amount := by
  unfold update_state_node
  simp only []
  rw [if_pos (show (match s.decision_result with
      | some r => r.decision
      | none => "QUEUE") = "QUEUE" from h)]
  simp

theorem update_state_of_not_queue (s : AgentState)
    (h : ¬ should_execute s = "QUEUE") :
    (update_state_node s).pending_queue = s.pending_queue
    ∧ (update_state_node s).current_balance = s.current_balance
    ∧ (update_state_node s).total_delayed_today = s.total_delayed_today
    ∧ (update_state_node s).total_settled_today = s.total_settled_today
    ∧ (update_state_node s).decision_log = s.decision_log := by
  unfold update_state_node
  simp only []
  rw [if_neg (show ¬ (match s.decision_result with
      | some r => r.decision
      | none => "QUEUE") = "QUEUE" from h)]
  simp

theorem update_state_balance (s : AgentState) :
    (update_state_node s).current_balance = s.current_balance
    ∧ (update_state_node s).total_settled_today = s.total_settled_today := by
  unfold update_state_node
  simp only []
  constructor <;> (split <;> simp)

theorem run_graph_queue_effect (A : LiquidityAgent) (s0 : AgentState)
    (h : should_execute (run_graph A s0) = "QUEUE") :
    (run_graph A s0).pending_queue = s0.pending_queue ++ [s0.new_message]
    ∧ (run_graph A s0).total_delayed_today
        = s0.total_delayed_today + s0.new_message.amount := by
  have hf1 := check_guardrails_frame A s0
  have hf2 := cash_manager_node_frame A (check_guardrails_node A s0)
  by_cases hs : should_execute (cash_manager_node A
      (check_guardrails_node A s0)) = "SETTLE"
  · exfalso
    have : should_execute (run_graph A s0) = "SETTLE" := by
      unfold run_graph
      simp only []
      rw [if_pos hs, should_execute_update_state,
        should_execute_execute_settlement]
      exact hs
    rw [this] at h
    exact absurd h (by decide)
  · have hrg : run_graph A s0
        = update_state_node (cash_manager_node A (check_guardrails_node A s0)) := by
      unfold run_graph
      simp only []
      rw [if_neg hs]
    have hq : should_execute (cash_manager_node A
        (check_guardrails_node A s0)) = "QUEUE" := by
      rw [hrg, should_execute_update_state] at h
      exact h
    have hupd := update_state_of_queue _ hq
    rw [hrg]
    rw [hupd.1, hupd.2, hf2.1, hf1.1, hf2.2.2.1, hf1.2.2.1, hf2.2.2.2.2,
      hf1.2.2.2.2]
    exact ⟨rfl, rfl⟩

theorem run_graph_settle_effect (A : LiquidityAgent) (s0 : AgentState)
    (h : should_execute (run_graph A s0) = "SETTLE") :
    (run_graph A s0).current_balance
      = (if s0.current_balance < s0.new_message.amount then 0
         else s0.current_balance - s0.new_message.amount)
    ∧ (run_graph A s0).total_settled_today
        = s0.total_settled_today + s0.new_message.amount := by
  have hf1 := check_guardrails_frame A s0
  have hf2 := cash_manager_node_frame A (check_guardrails_node A s0)
  by_cases hs : should_execute (cash_manager_node A
      (check_guardrails_node A s0)) = "SETTLE"
  · have hrg : run_graph A s0
        = update_state_node (execute_settlement_node
            (cash_manager_node A (check_guardrails_node A s0))) := by
      unfold run_graph
      simp only []
      rw [if_pos hs]
    set s2 := cash_manager_node A (check_guardrails_node A s0) with hs2
    have hbal := update_state_balance (execute_settlement_node s2)
    have hexe : (execute_settlement_node s2).current_balance
        = (if s2.current_balance < s2.new_message.amount then 0
           else s2.current_balance - s2.new_message.amount)
        ∧ (execute_settlement_node s2).total_settled_today
            = s2.total_settled_today + s2.new_message.amount := by
      unfold execute_settlement_node
      by_cases hb : s2.current_balance < s2.new_message.amount
      · simp [hb]
      · simp [hb]
    rw [hrg, hbal.1, hbal.2, hexe.1, hexe.2]
    rw [hf2.2.1, hf1.2.1, hf2.2.2.2.1, hf1.2.2.2.1, hf2.2.2.2.2, hf1.2.2.2.2]
    exact ⟨rfl, rfl⟩
  · exfalso
    have : should_execute (run_graph A s0) = should_execute (cash_manager_node A
        (check_guardrails_node A s0)) := by
      unfold run_graph
      simp only []
      rw [if_neg hs, should_execute_update_state]
    rw [this] at h
    exact hs h

theorem pipeline_guardrail_pass (A : LiquidityAgent) (m : ISO20022Message)
    (snap : LiquiditySnapshot)
    (hallow : (check_transaction A.circuit_breaker m snap.current_balance).1
      = true) :
    check_guardrails_node A (initial_state m snap) = initial_state m snap := by
  have hchk : check_transaction A.circuit_breaker
      (initial_state m snap).new_message
      (initial_state m snap).current_balance
      = (true, (check_transaction A.circuit_breaker m snap.current_balance).2) := by
    rw [← hallow]
    exact Prod.mk.eta.symm
  unfold check_guardrails_node
  rw [hchk]

theorem pipeline_result_of_allowed (A : LiquidityAgent) (m : ISO20022Message)
    (snap : LiquiditySnapshot)
    (hallow : (check_transaction A.circuit_breaker m snap.current_balance).1
      = true)
    (hns : cash_manager_decision A m snap.current_balance
      snap.incoming_projections ≠ "SETTLE") :
    run_graph A (initial_state m snap)
      = update_state_node (cash_manager_core A (initial_state m snap))
    ∧ (run_graph A (initial_state m snap)).decision_result
      = some (cashManagerResult A (initial_state m snap)) := by
  have hg := pipeline_guardrail_pass A m snap hallow
  have hcm : cash_manager_node A (initial_state m snap)
      = cash_manager_core A (initial_state m snap) := rfl
  have hse : should_execute (cash_manager_node A (initial_state m snap))
      = cash_manager_decision A m snap.current_balance
          snap.incoming_projections := by
    rw [hcm]
    rfl
  have hrg : run_graph A (initial_state m snap)
      = update_state_node (cash_manager_core A (initial_state m snap)) := by
    unfold run_graph
    simp only []
    rw [hg, hse, if_neg hns, hcm]
  refine ⟨hrg, ?_⟩
  rw [hrg, update_state_node_decision_result]
  rfl

theorem pipeline_result_of_settle (A : LiquidityAgent) (m : ISO20022Message)
    (snap : LiquiditySnapshot)
    (hallow : (check_transaction A.circuit_breaker m snap.current_balance).1
      = true)
    (hst : cash_manager_decision A m snap.current_balance
      snap.incoming_projections = "SETTLE") :
    run_graph A (initial_state m snap)
      = update_state_node (execute_settlement_node
          (cash_manager_core A (initial_state m snap)))
    ∧ ((run_graph A (initial_state m snap)).decision_result).map
        DecisionResult.decision = some "SETTLE" := by
  have hg := pipeline_guardrail_pass A m snap hallow
  have hcm : cash_manager_node A (initial_state m snap)
      = cash_manager_core A (initial_state m snap) := rfl
  have hse : should_execute (cash_manager_node A (initial_state m snap))
      = cash_manager_decision A m snap.current_balance
          snap.incoming_projections := by
    rw [hcm]
    rfl
  have hrg : run_graph A (initial_state m snap)
      = update_state_node (execute_settlement_node
          (cash_manager_core A (initial_state m snap))) := by
    unfold run_graph
    simp only []
    rw [hg, hse, if_pos hst, hcm]
  refine ⟨hrg, ?_⟩
  rw [hrg, update_state_node_decision_result]
  unfold execute_settlement_node
  simp only []
  have : (cash_manager_core A (initial_state m snap)).decision_result
      = some (cashManagerResult A (initial_state m snap)) := rfl
  rw [this]
  simp only [Option.map_map, Option.map_some']
  show some (cashManagerResult A (initial_state m snap)).decision = _
  rw [show (cashManagerResult A (initial_state m snap)).decision
    = cash_manager_decision A m snap.current_balance
        snap.incoming_projections from rfl, hst]

theorem execute_settlement_repo_log (s : AgentState)
    (hb : s.current_balance < s.new_message.amount) :
    repoLogMsg (s.new_message.amount - s.current_balance)
      ∈ (execute_settlement_node s).decision_log := by
  unfold execute_settlement_node
  simp [hb]

theorem update_state_log_of_not_queue (s : AgentState)
    (h : ¬ should_execute s = "QUEUE") :
    (update_state_node s).decision_log = s.decision_log :=
  (update_state_of_not_queue s h).2.2.2.2


theorem should_execute_eq_of_map (s : AgentState) (d : String)
    (h : (s.decision_result).map DecisionResult.decision = some d) :
    should_execute s = d := by
  unfold should_execute
  cases hres : s.decision_result with
  | none => rw [hres] at h; simp at h
  | some r =>
    rw [hres] at h
    simp only [Option.map_some, Option.map_some', Option.some.injEq] at h
    exact h

theorem run_graph_balance_of_not_settle (A : LiquidityAgent) (s0 : AgentState)
    (h : should_execute (run_graph A s0) ≠ "SETTLE") :
    (run_graph A s0).current_balance = s0.current_balance := by
  have hf1 := check_guardrails_frame A s0
  have hf2 := cash_manager_node_frame A (check_guardrails_node A s0)
  by_cases hs : should_execute (cash_manager_node A
      (check_guardrails_node A s0)) = "SETTLE"
  · exfalso
    apply h
    unfold run_graph
    simp only []
    rw [if_pos hs, should_execute_update_state,
      should_execute_execute_settlement]
    exact hs
  · have hrg : run_graph A s0
        = update_state_node (cash_manager_node A
            (check_guardrails_node A s0)) := by
      unfold run_graph
      simp only []
      rw [if_neg hs]
    rw [hrg, (update_state_balance _).1, hf2.2.1, hf1.2.1]

theorem cashManagerResult_congr (A : LiquidityAgent) (s1 s2 : AgentState)
    (hm : s1.new_message = s2.new_message)
    (hb : s1.current_balance = s2.current_balance)
    (hp : s1.incoming_projections = s2.incoming_projections)
    (hr : calculate_risk_score s1.current_balance s1.new_message
        s1.pending_queue
      = calculate_risk_score s2.current_balance s2.new_message
        s2.pending_queue) :
    cashManagerResult A s1 = cashManagerResult A s2 := by
  unfold cashManagerResult
  rw [hr, hm, hb, hp]

end AgentLemmas

section ConcreteEvaluations

theorem ledgerAB_deposits : ledgerAB.tokenized_deposits
    = [⟨0, "BANK-001", 1000000000, "USD", 0, "ACTIVE"⟩,
       ⟨1, "A", 30000000, "USD", 1, "ACTIVE"⟩,
       ⟨2, "A", 40000000, "USD", 2, "ACTIVE"⟩] := rfl

theorem burnAB_deposits : burnAB.1.tokenized_deposits
    = [⟨0, "BANK-001", 1000000000, "USD", 0, "ACTIVE"⟩,
       ⟨1, "A", 30000000, "USD", 1, "BURNED"⟩,
       ⟨2, "A", 20000000, "USD", 2, "ACTIVE"⟩,
       ⟨3, "A", 20000000, "USD", 3, "ACTIVE"⟩] := by
  norm_num [burnAB, ledgerAB, UnifiedLedger.init, mint_deposit, burn_deposit,
    sortByTime, insertByTime, burnLoop, fullIds, splitOf, burnedIds,
    applyBurnTok, lookupBal, setBal, ownActive]
  decide

theorem burnAB_ids : burnAB.2 = [1, 2] := by
  norm_num [burnAB, ledgerAB, UnifiedLedger.init, mint_deposit, burn_deposit,
    sortByTime, insertByTime, burnLoop, fullIds, splitOf, burnedIds,
    applyBurnTok, lookupBal, setBal, ownActive]

theorem burnAB_cached : lookupBal burnAB.1.ledger_state "A" = some 20000000 := by
  norm_num [burnAB, ledgerAB, UnifiedLedger.init, mint_deposit, burn_deposit,
    sortByTime, insertByTime, burnLoop, fullIds, splitOf, burnedIds,
    applyBurnTok, lookupBal, setBal, ownActive, List.find?]
  simp +decide

theorem ledgerC_deposits : ledgerC.tokenized_deposits
    = [⟨0, "BANK-001", 1000000000, "USD", 0, "ACTIVE"⟩,
       ⟨1, "C", 10, "USD", 1, "ACTIVE"⟩] := rfl


theorem settleAB_deposits : settleAB.1.tokenized_deposits
    = [⟨0, "BANK-001", 1000000000, "USD", 0, "ACTIVE"⟩,
       ⟨1, "A", 30000000, "USD", 1, "BURNED"⟩,
       ⟨2, "A", 20000000, "USD", 2, "ACTIVE"⟩,
       ⟨3, "A", 20000000, "USD", 3, "ACTIVE"⟩,
       ⟨4, "B", 50000000, "USD", 4, "ACTIVE"⟩] := by
  norm_num [settleAB, execute_atomic_settlement, get_total_tokenized_balance,
    ledgerAB, UnifiedLedger.init, mint_deposit, burn_deposit,
    sortByTime, insertByTime, burnLoop, fullIds, splitOf, burnedIds,
    applyBurnTok, lookupBal, setBal, ownActive]
  simp +decide
  norm_num

theorem settleAB_status : settleAB.2.status = "EXECUTED" := by
  norm_num [settleAB, execute_atomic_settlement, get_total_tokenized_balance,
    ledgerAB, UnifiedLedger.init, mint_deposit, burn_deposit,
    sortByTime, insertByTime, burnLoop, fullIds, splitOf, burnedIds,
    applyBurnTok, lookupBal, setBal, ownActive]
  simp +decide
  norm_num

end ConcreteEvaluations

section ClaimTheorems

/-- C1: the spec says a partially-covering deposit is marked BURNED and one
new ACTIVE deposit is minted for the unburned remainder, so the owner's
ACTIVE total drops by exactly the burned amount.  The code (burn_deposit,
lines 160-172) instead leaves the split deposit ACTIVE with its amount
overwritten to the remainder AND mints a duplicate remainder deposit: with
ACTIVE deposits of $30M and $40M and a $50M burn, deposit 2 stays ACTIVE at
$20M, a duplicate $20M deposit 3 appears, the ACTIVE total drops by only
$30M (to $40M instead of $20M), and the cached balance ($20M) diverges from
the token table ($40M). -/
theorem C1_partial_burn_code_bug :
    get_total_tokenized_balance ledgerAB "A" = 70000000
    ∧ burnAB.2 = [1, 2]
    ∧ burnAB.1.tokenized_deposits
        = [⟨0, "BANK-001", 1000000000, "USD", 0, "ACTIVE"⟩,
           ⟨1, "A", 30000000, "USD", 1, "BURNED"⟩,
           ⟨2, "A", 20000000, "USD", 2, "ACTIVE"⟩,
           ⟨3, "A", 20000000, "USD", 3, "ACTIVE"⟩]
    ∧ get_total_tokenized_balance burnAB.1 "A" = 40000000
    ∧ lookupBal burnAB.1.ledger_state "A" = some 20000000 := by
  refine ⟨?_, burnAB_ids, burnAB_deposits, ?_, burnAB_cached⟩
  · norm_num +decide [get_total_tokenized_balance, ledgerAB_deposits, ownActive]
  · norm_num +decide [get_total_tokenized_balance, burnAB_deposits, ownActive]

/-- C3 counterexample: burn_deposit performs no balance check and reports no
error.  With account C holding a single $10 ACTIVE deposit, burn_deposit(C,
$20) returns the burned id list [1] normally, burns everything C has, and
still decrements C's cached balance by the full $20 (to -$10). -/
theorem C3_counterexample :
    get_total_tokenized_balance ledgerC "C" = 10
    ∧ burnC.2 = [1]
    ∧ get_total_tokenized_balance burnC.1 "C" = 0
    ∧ lookupBal burnC.1.ledger_state "C" = some (-10) := by
  refine ⟨?_, ?_, ?_, ?_⟩
  · norm_num +decide [get_total_tokenized_balance, ledgerC_deposits, ownActive]
  · norm_num [burnC, ledgerC, UnifiedLedger.init, mint_deposit, burn_deposit,
      sortByTime, insertByTime, burnLoop, fullIds, splitOf, burnedIds,
      applyBurnTok, lookupBal, setBal, ownActive]
  · decide
  · norm_num [burnC, ledgerC, UnifiedLedger.init, mint_deposit, burn_deposit,
      sortByTime, insertByTime, burnLoop, fullIds, splitOf, burnedIds,
      applyBurnTok, lookupBal, setBal, ownActive, List.find?]
    simp +decide

/-- C3 amended: burn_deposit never fails and performs no balance check (the
check lives in execute_atomic_settlement); nevertheless it can never burn
more token value than the owner holds: on a well-formed ledger with positive
deposit amounts, the owner's ACTIVE total decreases by at most the requested
amount and never becomes negative. -/
theorem C3_burn_never_overdraws (L : UnifiedLedger) (own : String)
    (amount : ℚ) (hWF : WF L) (hamt : 0 ≤ amount)
    (hpos : ∀ t ∈ L.tokenized_deposits, 0 ≤ t.amount) :
    get_total_tokenized_balance L own - amount
      ≤ get_total_tokenized_balance (burn_deposit L own amount).1 own
    ∧ 0 ≤ get_total_tokenized_balance (burn_deposit L own amount).1 own :=
  ⟨burn_no_overdraw L own amount hWF hamt,
   burn_deposit_total_nonneg L own amount hpos⟩

/-- Witness for C3 at the concrete insufficient burn. -/
theorem C3_witness :
    get_total_tokenized_balance ledgerC "C" - 20
      ≤ get_total_tokenized_balance (burn_deposit ledgerC "C" 20).1 "C"
    ∧ 0 ≤ get_total_tokenized_balance (burn_deposit ledgerC "C" 20).1 "C" :=
  C3_burn_never_overdraws ledgerC "C" 20 (by decide) (by norm_num) (by decide)

/-- C8: when the sender's available tokenized balance is below the amount,
execute_atomic_settlement records a FAILED settlement with an
insufficient-balance reason, appends it to the settlements audit list, and
changes no deposit and no cached balance. -/
theorem C8_failed_settlement_frame (L : UnifiedLedger) (fa ta : String)
    (amount : ℚ) (mid : Option String)
    (h : get_total_tokenized_balance L fa < amount) :
    (execute_atomic_settlement L fa ta amount mid).2.status = "FAILED"
    ∧ (execute_atomic_settlement L fa ta amount mid).2.failure_reason
        = some (insufficientBalanceMsg (get_total_tokenized_balance L fa)
            amount)
    ∧ (execute_atomic_settlement L fa ta amount mid).2.failure_reason ≠ none
    ∧ (execute_atomic_settlement L fa ta amount mid).1.settlements
        = L.settlements ++ [(execute_atomic_settlement L fa ta amount mid).2]
    ∧ (execute_atomic_settlement L fa ta amount mid).1.tokenized_deposits
        = L.tokenized_deposits
    ∧ (execute_atomic_settlement L fa ta amount mid).1.ledger_state
        = L.ledger_state := by
  unfold execute_atomic_settlement
  simp only []
  rw [if_pos h]
  simp

/-- Witness for C8: account X holds no deposits on ledgerC, so a $5 transfer
from X fails and changes nothing. -/
theorem C8_witness :
    (execute_atomic_settlement ledgerC "X" "Y" 5 none).2.status = "FAILED"
    ∧ (execute_atomic_settlement ledgerC "X" "Y" 5 none).2.failure_reason
        = some (insufficientBalanceMsg
            (get_total_tokenized_balance ledgerC "X") 5)
    ∧ (execute_atomic_settlement ledgerC "X" "Y" 5 none).2.failure_reason
        ≠ none
    ∧ (execute_atomic_settlement ledgerC "X" "Y" 5 none).1.settlements
        = ledgerC.settlements
          ++ [(execute_atomic_settlement ledgerC "X" "Y" 5 none).2]
    ∧ (execute_atomic_settlement ledgerC "X" "Y" 5 none).1.tokenized_deposits
        = ledgerC.tokenized_deposits
    ∧ (execute_atomic_settlement ledgerC "X" "Y" 5 none).1.ledger_state
        = ledgerC.ledger_state :=
  C8_failed_settlement_frame ledgerC "X" "Y" 5 none (by decide)


/-- C2: the spec says an EXECUTED settlement conserves the total of ACTIVE
deposit amounts over the whole ledger (burn amount equals mint amount).
Because of the duplicate-remainder bug in burn_deposit, the $50M A-to-B
settlement on a ledger holding $1.07B of ACTIVE value returns EXECUTED yet
leaves $1.09B of ACTIVE value: only $30M was removed from A while $50M was
minted to B, so $20M was created and A retains $40M instead of $20M. -/
theorem C2_conservation_code_bug :
    settleAB.2.status = "EXECUTED"
    ∧ totalActive ledgerAB = 1070000000
    ∧ totalActive settleAB.1 = 1090000000
    ∧ get_total_tokenized_balance settleAB.1 "A" = 40000000
    ∧ get_total_tokenized_balance settleAB.1 "B" = 50000000 := by
  refine ⟨settleAB_status, ?_, ?_, ?_, ?_⟩
  · norm_num +decide [totalActive, ledgerAB_deposits]
  · norm_num +decide [totalActive, settleAB_deposits]
  · norm_num +decide [get_total_tokenized_balance, settleAB_deposits, ownActive]
  · norm_num +decide [get_total_tokenized_balance, settleAB_deposits, ownActive]

/-- C4 counterexample: the override does not apply to every instruction above
80% of max_allowable_variance — the guardrail REJECT takes precedence.  A $2B
instruction is above 80% of the default $1B cap, yet the decision is REJECT,
not REQUIRE_HUMAN_OVERRIDE. -/
theorem C4_counterexample :
    agentDefault.circuit_breaker.max_allowable_variance * 0.8
      < msgOver2B.amount
    ∧ (process_message agentDefault msgOver2B snap10M).map
        DecisionResult.decision = some "REJECT" := by
  constructor
  · norm_num [agentDefault, mkLiquidityAgent, msgOver2B]
  · have h := pipeline_reject_of_over_variance agentDefault msgOver2B snap10M
      (by norm_num [agentDefault, mkLiquidityAgent, msgOver2B])
    show ((run_graph agentDefault (initial_state msgOver2B snap10M)).decision_result).map
        DecisionResult.decision = some "REJECT"
    rw [h.1]
    rfl

/-- C4 corrected: on every instruction the circuit breaker lets through whose
amount is above 80% of max_allowable_variance, the decision is
REQUIRE_HUMAN_OVERRIDE — the override replaces a tentative SETTLE or QUEUE,
but not a guardrail REJECT. -/
theorem C4_override_when_allowed (A : LiquidityAgent) (m : ISO20022Message)
    (snap : LiquiditySnapshot)
    (hallow : (check_transaction A.circuit_breaker m snap.current_balance).1
      = true)
    (hbig : A.circuit_breaker.max_allowable_variance * 0.8 < m.amount) :
    (process_message A m snap).map DecisionResult.decision
      = some "REQUIRE_HUMAN_OVERRIDE" := by
  have hover : should_trigger_human_override A.circuit_breaker m
      snap.current_balance = true := by
    unfold should_trigger_human_override
    rw [if_pos hbig]
  exact pipeline_override_of_large A m snap hallow hover

/-- Witness for C4: a $900M URGENT instruction passes the guardrails of the
$2B-pool agent and is above 80% of the $1B cap, so the decision is
REQUIRE_HUMAN_OVERRIDE. -/
theorem C4_witness :
    (check_transaction agentPool2B.circuit_breaker msg900M
        snap1B.current_balance).1 = true
    ∧ agentPool2B.circuit_breaker.max_allowable_variance * 0.8
        < msg900M.amount
    ∧ (process_message agentPool2B msg900M snap1B).map
        DecisionResult.decision = some "REQUIRE_HUMAN_OVERRIDE" := by
  have h1 : (check_transaction agentPool2B.circuit_breaker msg900M
      snap1B.current_balance).1 = true := by
    norm_num +decide [check_transaction, agentPool2B, mkLiquidityAgent,
      msg900M, snap1B]
  have h2 : agentPool2B.circuit_breaker.max_allowable_variance * 0.8
      < msg900M.amount := by
    norm_num [agentPool2B, mkLiquidityAgent, msg900M]
  exact ⟨h1, h2, C4_override_when_allowed agentPool2B msg900M snap1B h1 h2⟩

/-- C5: whenever the amount exceeds max_allowable_variance the pipeline
rejects: the result is exactly the guardrail REJECT record with risk score 1
and the block reason as its only reasoning step, and the decision matrix and
settlement stages are skipped (balance, queue and settled total untouched). -/
theorem C5_guardrail_precedence (A : LiquidityAgent) (m : ISO20022Message)
    (snap : LiquiditySnapshot)
    (h : A.circuit_breaker.max_allowable_variance < m.amount) :
    process_message A m snap
      = some (guardrailRejectResult m snap.current_balance
          (varianceBlockMsg m.amount A.circuit_breaker.max_allowable_variance))
    ∧ (process_message A m snap).map DecisionResult.decision = some "REJECT"
    ∧ (process_message A m snap).map DecisionResult.risk_score = some 1
    ∧ (process_message A m snap).map DecisionResult.reasoning_steps
        = some [guardrailBlockReasoning (varianceBlockMsg m.amount
            A.circuit_breaker.max_allowable_variance)]
    ∧ (run_graph A (initial_state m snap)).current_balance
        = snap.current_balance
    ∧ (run_graph A (initial_state m snap)).pending_queue = snap.pending_queue
    ∧ (run_graph A (initial_state m snap)).total_settled_today
        = snap.total_settled_today := by
  have h0 := pipeline_reject_of_over_variance A m snap h
  have hp : process_message A m snap
      = some (guardrailRejectResult m snap.current_balance
          (varianceBlockMsg m.amount
            A.circuit_breaker.max_allowable_variance)) := h0.1
  exact ⟨hp, by rw [hp]; rfl, by rw [hp]; rfl, by rw [hp]; rfl,
    h0.2.1, h0.2.2.1, h0.2.2.2⟩

/-- Witness for C5: the $2B instruction against the default agent. -/
theorem C5_witness :
    process_message agentDefault msgOver2B snap10M
      = some (guardrailRejectResult msgOver2B snap10M.current_balance
          (varianceBlockMsg msgOver2B.amount
            agentDefault.circuit_breaker.max_allowable_variance))
    ∧ (process_message agentDefault msgOver2B snap10M).map
        DecisionResult.decision = some "REJECT"
    ∧ (process_message agentDefault msgOver2B snap10M).map
        DecisionResult.risk_score = some 1
    ∧ (process_message agentDefault msgOver2B snap10M).map
        DecisionResult.reasoning_steps
        = some [guardrailBlockReasoning (varianceBlockMsg msgOver2B.amount
            agentDefault.circuit_breaker.max_allowable_variance)]
    ∧ (run_graph agentDefault (initial_state msgOver2B snap10M)).current_balance
        = snap10M.current_balance
    ∧ (run_graph agentDefault (initial_state msgOver2B snap10M)).pending_queue
        = snap10M.pending_queue
    ∧ (run_graph agentDefault (initial_state msgOver2B snap10M)).total_settled_today
        = snap10M.total_settled_today :=
  C5_guardrail_precedence agentDefault msgOver2B snap10M
    (by norm_num [agentDefault, mkLiquidityAgent, msgOver2B])

/-- C6 counterexample: with the default configuration the liquidity pool
equals the $1B initial balance, so the $500M URGENT sovereign instruction of
the example exceeds 40% of the pool: the decision is
REQUIRE_HUMAN_OVERRIDE, not SETTLE, no settlement or repo happens and the
balance stays $10M. -/
theorem C6_counterexample :
    (process_message agentDefault msgUrgent500 snap10M).map
        DecisionResult.decision = some "REQUIRE_HUMAN_OVERRIDE"
    ∧ (run_graph agentDefault
        (initial_state msgUrgent500 snap10M)).current_balance = 10000000 := by
  have hallow : (check_transaction agentDefault.circuit_breaker msgUrgent500
      snap10M.current_balance).1 = true := by
    norm_num +decide [check_transaction, agentDefault, mkLiquidityAgent,
      msgUrgent500, snap10M]
  have hover : should_trigger_human_override agentDefault.circuit_breaker
      msgUrgent500 snap10M.current_balance = true := by
    norm_num +decide [should_trigger_human_override, agentDefault,
      mkLiquidityAgent, msgUrgent500, snap10M]
  have hro := pipeline_override_of_large agentDefault msgUrgent500 snap10M
    hallow hover
  have hse := should_execute_eq_of_map _ _ hro
  refine ⟨hro, ?_⟩
  rw [run_graph_balance_of_not_settle agentDefault _ (by rw [hse]; decide)]
  rfl

/-- C6 corrected scenario: the example only behaves as described when the
liquidity pool is large enough that $500M stays at or below 40% of it.  With
a $2B pool the $500M URGENT sovereign instruction against a $10M balance
settles: decision SETTLE, a $490M implicit repo in the decision log, final
balance $0; and a $1.5B instruction (over the cap) is rejected. -/
theorem C6_scenario_with_2B_pool :
    (process_message agentPool2B msgUrgent500 snap10M).map
        DecisionResult.decision = some "SETTLE"
    ∧ (run_graph agentPool2B
        (initial_state msgUrgent500 snap10M)).current_balance = 0
    ∧ repoLogMsg 490000000
        ∈ (run_graph agentPool2B
            (initial_state msgUrgent500 snap10M)).decision_log
    ∧ (process_message agentPool2B msgOver15 snap10M).map
        DecisionResult.decision = some "REJECT" := by
  have hallow : (check_transaction agentPool2B.circuit_breaker msgUrgent500
      snap10M.current_balance).1 = true := by
    norm_num +decide [check_transaction, agentPool2B, mkLiquidityAgent,
      msgUrgent500, snap10M]
  have hst : cash_manager_decision agentPool2B msgUrgent500
      snap10M.current_balance snap10M.incoming_projections = "SETTLE" := by
    norm_num +decide [cash_manager_decision, should_trigger_human_override,
      get_next_inflow, agentPool2B, mkLiquidityAgent, msgUrgent500, snap10M]
  have hps := pipeline_result_of_settle agentPool2B msgUrgent500 snap10M
    hallow hst
  have hse := should_execute_eq_of_map _ _ hps.2
  refine ⟨hps.2, ?_, ?_, ?_⟩
  · rw [(run_graph_settle_effect agentPool2B
      (initial_state msgUrgent500 snap10M) hse).1]
    norm_num [initial_state, msgUrgent500, snap10M]
  · have hbal : (cash_manager_core agentPool2B (initial_state msgUrgent500
        snap10M)).current_balance
        < (cash_manager_core agentPool2B (initial_state msgUrgent500
            snap10M)).new_message.amount := by
      show (10000000 : ℚ) < 500000000
      norm_num
    have hmem := execute_settlement_repo_log _ hbal
    have hd : should_execute (cash_manager_core agentPool2B
        (initial_state msgUrgent500 snap10M)) = "SETTLE" := by
      show (cashManagerResult agentPool2B
        (initial_state msgUrgent500 snap10M)).decision = "SETTLE"
      exact hst
    have hnq : ¬ should_execute (execute_settlement_node (cash_manager_core
        agentPool2B (initial_state msgUrgent500 snap10M))) = "QUEUE" := by
      rw [should_execute_execute_settlement, hd]
      decide
    rw [hps.1, update_state_log_of_not_queue _ hnq]
    have h49 : (cash_manager_core agentPool2B (initial_state msgUrgent500
        snap10M)).new_message.amount
        - (cash_manager_core agentPool2B (initial_state msgUrgent500
            snap10M)).current_balance = 490000000 := by
      show (500000000 : ℚ) - 10000000 = 490000000
      norm_num
    rw [h49] at hmem
    exact hmem
  · have h := pipeline_reject_of_over_variance agentPool2B msgOver15 snap10M
      (by norm_num [agentPool2B, mkLiquidityAgent, msgOver15])
    show ((run_graph agentPool2B
        (initial_state msgOver15 snap10M)).decision_result).map
        DecisionResult.decision = some "REJECT"
    rw [h.1]
    rfl

/-- C7 counterexample: process_message returns only the decision result —
no updated snapshot.  Two snapshots that differ in their pending queue give
exactly the same return value for a QUEUE decision, although the internal
graph state ends with different queues; the caller has no way to obtain
the updated queue from the return value. -/
theorem C7_counterexample :
    process_message agentDefault msgQ snapQa
      = process_message agentDefault msgQ snapQb
    ∧ (process_message agentDefault msgQ snapQa).map DecisionResult.decision
        = some "QUEUE"
    ∧ (run_graph agentDefault (initial_state msgQ snapQa)).pending_queue
        = [msgQ]
    ∧ (run_graph agentDefault (initial_state msgQ snapQb)).pending_queue
        = [msgQ50, msgQ] := by
  have hallow : (check_transaction agentDefault.circuit_breaker msgQ
      snapQa.current_balance).1 = true := by
    norm_num +decide [check_transaction, agentDefault, mkLiquidityAgent,
      msgQ, snapQa]
  have hallow2 : (check_transaction agentDefault.circuit_breaker msgQ
      snapQb.current_balance).1 = true := hallow
  have hqd : cash_manager_decision agentDefault msgQ snapQa.current_balance
      snapQa.incoming_projections = "QUEUE" := by
    norm_num +decide [cash_manager_decision, should_trigger_human_override,
      get_next_inflow, agentDefault, mkLiquidityAgent, msgQ, snapQa]
  have hqd2 : cash_manager_decision agentDefault msgQ snapQb.current_balance
      snapQb.incoming_projections = "QUEUE" := hqd
  have hns : cash_manager_decision agentDefault msgQ snapQa.current_balance
      snapQa.incoming_projections ≠ "SETTLE" := by
    rw [hqd]
    decide
  have hns2 : cash_manager_decision agentDefault msgQ snapQb.current_balance
      snapQb.incoming_projections ≠ "SETTLE" := by
    rw [hqd2]
    decide
  have hpa := pipeline_result_of_allowed agentDefault msgQ snapQa hallow hns
  have hpb := pipeline_result_of_allowed agentDefault msgQ snapQb hallow2 hns2
  have hcm_eq : cashManagerResult agentDefault (initial_state msgQ snapQa)
      = cashManagerResult agentDefault (initial_state msgQ snapQb) := by
    apply cashManagerResult_congr
    · rfl
    · rfl
    · rfl
    · show calculate_risk_score 100000000 msgQ []
        = calculate_risk_score 100000000 msgQ [msgQ50]
      have h1 : calculate_risk_score (100000000 : ℚ) msgQ [] = 0 := by
        norm_num [calculate_risk_score, msgQ]
      have h2 : calculate_risk_score (100000000 : ℚ) msgQ [msgQ50] = 0 := by
        norm_num [calculate_risk_score, msgQ, msgQ50]
      rw [h1, h2]
  have hmapa : (process_message agentDefault msgQ snapQa).map
      DecisionResult.decision = some "QUEUE" := by
    show ((run_graph agentDefault
        (initial_state msgQ snapQa)).decision_result).map
        DecisionResult.decision = some "QUEUE"
    rw [hpa.2]
    show some (cash_manager_decision agentDefault msgQ snapQa.current_balance
      snapQa.incoming_projections) = some "QUEUE"
    rw [hqd]
  have hmapb : (process_message agentDefault msgQ snapQb).map
      DecisionResult.decision = some "QUEUE" := by
    show ((run_graph agentDefault
        (initial_state msgQ snapQb)).decision_result).map
        DecisionResult.decision = some "QUEUE"
    rw [hpb.2]
    show some (cash_manager_decision agentDefault msgQ snapQb.current_balance
      snapQb.incoming_projections) = some "QUEUE"
    rw [hqd2]
  refine ⟨?_, hmapa, ?_, ?_⟩
  · show (run_graph agentDefault (initial_state msgQ snapQa)).decision_result
        = (run_graph agentDefault (initial_state msgQ snapQb)).decision_result
    rw [hpa.2, hpb.2, hcm_eq]
  · rw [(run_graph_queue_effect agentDefault (initial_state msgQ snapQa)
      (should_execute_eq_of_map _ _ hmapa)).1]
    rfl
  · rw [(run_graph_queue_effect agentDefault (initial_state msgQ snapQb)
      (should_execute_eq_of_map _ _ hmapb)).1]
    rfl

/-- C7 corrected: process_message returns only the decision result of the
graph run.  The state changes the spec promises in the updated snapshot do
happen, but only inside the discarded graph state: on a QUEUE decision the
instruction is appended to the queue and the delayed total bumped, on a
SETTLE decision the settled total is bumped — none of it is returned. -/
theorem C7_result_only (A : LiquidityAgent) (m : ISO20022Message)
    (snap : LiquiditySnapshot) :
    process_message A m snap
      = (run_graph A (initial_state m snap)).decision_result
    ∧ (should_execute (run_graph A (initial_state m snap)) = "QUEUE" →
        (run_graph A (initial_state m snap)).pending_queue
          = snap.pending_queue ++ [m]
        ∧ (run_graph A (initial_state m snap)).total_delayed_today
          = snap.total_delayed_today + m.amount)
    ∧ (should_execute (run_graph A (initial_state m snap)) = "SETTLE" →
        (run_graph A (initial_state m snap)).total_settled_today
          = snap.total_settled_today + m.amount) := by
  refine ⟨rfl, fun h => ?_, fun h => ?_⟩
  · exact run_graph_queue_effect A (initial_state m snap) h
  · exact (run_graph_settle_effect A (initial_state m snap) h).2

/-- Witness for C7 at the concrete queueing scenario. -/
theorem C7_witness :
    process_message agentDefault msgQ snapQa
      = (run_graph agentDefault (initial_state msgQ snapQa)).decision_result
    ∧ (should_execute (run_graph agentDefault (initial_state msgQ snapQa))
        = "QUEUE" →
        (run_graph agentDefault (initial_state msgQ snapQa)).pending_queue
          = snapQa.pending_queue ++ [msgQ]
        ∧ (run_graph agentDefault
            (initial_state msgQ snapQa)).total_delayed_today
          = snapQa.total_delayed_today + msgQ.amount)
    ∧ (should_execute (run_graph agentDefault (initial_state msgQ snapQa))
        = "SETTLE" →
        (run_graph agentDefault
            (initial_state msgQ snapQa)).total_settled_today
          = snapQa.total_settled_today + msgQ.amount) :=
  C7_result_only agentDefault msgQ snapQa

/-- C9: the risk score is 1 at zero balance; at nonzero balance it is
exactly the spec's threshold table applied to
buffer_ratio = balance / (outflow + 1); the table is non-increasing in the
ratio; and every score lies in [0, 1]. -/
theorem C9_risk_score_table (current_balance : ℚ) (m : ISO20022Message)
    (q : List ISO20022Message) :
    (current_balance = 0 → calculate_risk_score current_balance m q = 1)
    ∧ (current_balance ≠ 0 →
        calculate_risk_score current_balance m q
          = riskTableSpec (current_balance
              / (m.amount + (q.map ISO20022Message.amount).sum + 1)))
    ∧ (∀ r1 r2 : ℚ, r1 ≤ r2 → riskTableSpec r2 ≤ riskTableSpec r1)
    ∧ 0 ≤ calculate_risk_score current_balance m q
    ∧ calculate_risk_score current_balance m q ≤ 1 := by
  refine ⟨?_, ?_, ?_, ?_, ?_⟩
  · intro h
    simp [calculate_risk_score, h]
  · intro h
    unfold calculate_risk_score riskTableSpec
    simp only []
    rw [if_neg h]
  · intro r1 r2 h12
    unfold riskTableSpec
    split_ifs <;> linarith
  · unfold calculate_risk_score
    simp only []
    split_ifs <;> norm_num
  · unfold calculate_risk_score
    simp only []
    split_ifs <;> norm_num

/-- Witness for C9 at a concrete balance, instruction and queue. -/
theorem C9_witness :
    ((5 : ℚ) = 0 → calculate_risk_score 5 msgRisk [] = 1)
    ∧ ((5 : ℚ) ≠ 0 →
        calculate_risk_score 5 msgRisk []
          = riskTableSpec ((5 : ℚ)
              / (msgRisk.amount
                  + (([] : List ISO20022Message).map ISO20022Message.amount).sum
                  + 1)))
    ∧ (∀ r1 r2 : ℚ, r1 ≤ r2 → riskTableSpec r2 ≤ riskTableSpec r1)
    ∧ 0 ≤ calculate_risk_score 5 msgRisk []
    ∧ calculate_risk_score 5 msgRisk [] ≤ 1 :=
  C9_risk_score_table 5 msgRisk []

/-- C10 counterexample: a self-settlement (from = to) returns EXECUTED but
the account's cached balance does not increase by the amount (it is
unchanged), and the token table does not gain exactly one new ACTIVE deposit
of the amount: the $50 self-settlement on the fresh $1B ledger leaves the
cached balance at $1B and produces three ACTIVE deposits, two of $999999950
and one of $50. -/
theorem C10_counterexample :
    settleSelf.2.status = "EXECUTED"
    ∧ settleSelf.1.tokenized_deposits
        = [⟨0, "BANK-001", 999999950, "USD", 0, "ACTIVE"⟩,
           ⟨1, "BANK-001", 999999950, "USD", 1, "ACTIVE"⟩,
           ⟨2, "BANK-001", 50, "USD", 2, "ACTIVE"⟩]
    ∧ lookupBal settleSelf.1.ledger_state "BANK-001" = some 1000000000
    ∧ lookupBal (UnifiedLedger.init 1000000000).ledger_state "BANK-001"
        = some 1000000000 := by
  refine ⟨?_, ?_, ?_, ?_⟩
  · norm_num [settleSelf, execute_atomic_settlement,
      get_total_tokenized_balance, UnifiedLedger.init, mint_deposit,
      burn_deposit, sortByTime, insertByTime, burnLoop, fullIds, splitOf,
      burnedIds, applyBurnTok, lookupBal, setBal, ownActive]
  · norm_num [settleSelf, execute_atomic_settlement,
      get_total_tokenized_balance, UnifiedLedger.init, mint_deposit,
      burn_deposit, sortByTime, insertByTime, burnLoop, fullIds, splitOf,
      burnedIds, applyBurnTok, lookupBal, setBal, ownActive]
  · norm_num [settleSelf, execute_atomic_settlement,
      get_total_tokenized_balance, UnifiedLedger.init, mint_deposit,
      burn_deposit, sortByTime, insertByTime, burnLoop, fullIds, splitOf,
      burnedIds, applyBurnTok, lookupBal, setBal, ownActive, List.find?]
  · decide

/-- C10 corrected: for a settlement between two distinct accounts that the
balance check lets through, the receiver gains exactly one new ACTIVE USD
deposit of the amount, the receiver's cached balance grows by exactly the
amount, and deposits and cached balances of every account other than sender
and receiver are untouched. -/
theorem C10_settlement_frame (L : UnifiedLedger) (fa ta : String)
    (amount : ℚ) (mid : Option String) (hne : fa ≠ ta) (hWF : WF L)
    (hav : ¬ get_total_tokenized_balance L fa < amount) :
    (execute_atomic_settlement L fa ta amount mid).2.status = "EXECUTED"
    ∧ (execute_atomic_settlement L fa ta amount mid).1.tokenized_deposits.filter
        (fun t => t.owner == ta)
      = L.tokenized_deposits.filter (fun t => t.owner == ta)
        ++ [⟨(burn_deposit L fa amount).1.next_token, ta, amount, "USD",
             (burn_deposit L fa amount).1.next_token, "ACTIVE"⟩]
    ∧ (∀ acc, acc ≠ fa → acc ≠ ta →
        (execute_atomic_settlement L fa ta amount mid).1.tokenized_deposits.filter
            (fun t => t.owner == acc)
          = L.tokenized_deposits.filter (fun t => t.owner == acc))
    ∧ (∀ acc, acc ≠ fa → acc ≠ ta →
        lookupBal (execute_atomic_settlement
            L fa ta amount mid).1.ledger_state acc
          = lookupBal L.ledger_state acc)
    ∧ lookupBal (execute_atomic_settlement L fa ta amount mid).1.ledger_state
        ta
      = some ((lookupBal L.ledger_state ta).getD 0 + amount) := by
  unfold execute_atomic_settlement
  simp only []
  rw [if_neg hav]
  refine ⟨rfl, ?_, ?_, ?_, ?_⟩
  · show ((mint_deposit (burn_deposit L fa amount).1 ta
        amount).1.tokenized_deposits).filter (fun t => t.owner == ta) = _
    rw [mint_deposit_deposits, List.filter_append, mint_deposit_snd]
    rw [burn_deposit_filter_owner_pred L fa amount hWF (fun o => o == ta)
      (by simp [hne])]
    simp
  · intro acc hafa hata
    show ((mint_deposit (burn_deposit L fa amount).1 ta
        amount).1.tokenized_deposits).filter (fun t => t.owner == acc) = _
    rw [mint_deposit_deposits, List.filter_append, mint_deposit_snd]
    rw [burn_deposit_filter_owner_pred L fa amount hWF (fun o => o == acc)
      (by simp [hafa.symm])]
    simp [Ne.symm hata]
  · intro acc hafa hata
    show lookupBal (mint_deposit (burn_deposit L fa amount).1 ta
        amount).1.ledger_state acc = _
    rw [mint_lookup_other _ _ _ _ _ (by simp [hata]),
      burn_lookup_other _ _ _ _ (by simp [hafa])]
  · show lookupBal (mint_deposit (burn_deposit L fa amount).1 ta
        amount).1.ledger_state ta = _
    rw [mint_lookup_self, burn_lookup_other _ _ _ _ (by simp [Ne.symm hne])]

/-- Witness for C10: the $50M A-to-B settlement on ledgerAB. -/
theorem C10_witness :
    (execute_atomic_settlement ledgerAB "A" "B" 50000000 none).2.status
        = "EXECUTED"
    ∧ (execute_atomic_settlement ledgerAB "A" "B" 50000000
        none).1.tokenized_deposits.filter (fun t => t.owner == "B")
      = ledgerAB.tokenized_deposits.filter (fun t => t.owner == "B")
        ++ [⟨(burn_deposit ledgerAB "A" 50000000).1.next_token, "B",
             50000000, "USD",
             (burn_deposit ledgerAB "A" 50000000).1.next_token, "ACTIVE"⟩]
    ∧ (∀ acc, acc ≠ "A" → acc ≠ "B" →
        (execute_atomic_settlement ledgerAB "A" "B" 50000000
            none).1.tokenized_deposits.filter (fun t => t.owner == acc)
          = ledgerAB.tokenized_deposits.filter (fun t => t.owner == acc))
    ∧ (∀ acc, acc ≠ "A" → acc ≠ "B" →
        lookupBal (execute_atomic_settlement ledgerAB "A" "B" 50000000
            none).1.ledger_state acc
          = lookupBal ledgerAB.ledger_state acc)
    ∧ lookupBal (execute_atomic_settlement ledgerAB "A" "B" 50000000
        none).1.ledger_state "B"
      = some ((lookupBal ledgerAB.ledger_state "B").getD 0 + 50000000) :=
  C10_settlement_frame ledgerAB "A" "B" 50000000 none (by decide) (by decide)
    (by norm_num +decide [get_total_tokenized_balance, ledgerAB_deposits,
      ownActive])

end ClaimTheorems

end LiqueFlow
